import Mathlib

/-!
Verification of the tree-projection layer of the api-extractor-tools repository
(`src/app/api/parse/route` logic in `page.tsx`): the `JsValue` generic
introspection (`toJsValue`), the capability probe (`extractJsModel`), the
projection (`serializeApiItem`), the raw-JSON side table (`buildRawJsonMap`)
and the request handler's validation pipeline (`POST`).

Modelling conventions:
* JavaScript objects are modelled as association lists in `Object.keys`
  enumeration order; keys of a real JS object are distinct.
* JavaScript numbers appearing in the projected data are integers in the
  source's reachable states, so they are modelled as `Int`.
* Object identity for the `WeakSet` cycle check is modelled with a split
  value domain: `Val.arr`/`Val.obj` are freshly constructed, unaliased
  values (each syntactic occurrence is a distinct JS object, so a `seen`
  membership test on them is always false and adding them is unobservable),
  while `Val.ref` points into a heap of possibly shared / cyclic objects,
  and `seen` tracks heap addresses.
* The source recursion carries a `depth` counter with a `depth > 5` guard
  and recursive calls at `depth + 1`; it is embedded as structural
  recursion on `fuel = 6 - depth`, which agrees with the guard
  (`depth > 5 ↔ 6 - depth = 0`) and with the recursive calls
  (`6 - (depth + 1) = (6 - depth) - 1`) at every depth.
-/

/-- The tagged serializable value produced by `toJsValue`
(the `JsValue` union type used by the viewer). -/
inductive JsValue where
  | undefinedV
  | nullV
  | stringV (value : String)
  | numberV (value : Int)
  | booleanV (value : Bool)
  | arrayV (value : List JsValue) (length : Nat)
  | functionV (value : String)
  | circularV (value : String)
  | objectV (value : List (String × JsValue))

/-- A JavaScript value as seen by `toJsValue`: primitives, freshly built
(unaliased) composites, and references to heap objects that may be shared
or form cycles. -/
inductive Val where
  | undef
  | nullV
  | str (s : String)
  | num (n : Int)
  | bool (b : Bool)
  | funcV
  | arr (elems : List Val)
  | obj (props : List (String × Val))
  | ref (addr : Nat)

/-- A heap object: an array or a plain object. -/
inductive HeapObj where
  | harr (elems : List Val)
  | hobj (props : List (String × Val))

/-- The heap: every address holds an object. -/
def Heap : Type := Nat → HeapObj

/-- JS property read `obj[key]`: `undefined` when the key is absent. -/
def getProp (props : List (String × Val)) (key : String) : Val :=
  (props.lookup key).getD Val.undef

/-- JS `key in obj`. -/
def hasProp (props : List (String × Val)) (key : String) : Bool :=
  (props.lookup key).isSome

/-- JS `key in obj && typeof obj[key] === "string"`, returning the string. -/
def getStrProp (props : List (String × Val)) (key : String) : Option String :=
  match props.lookup key with
  | some (Val.str s) => some s
  | _ => none

/-- JS assignment `result[key] = v` on an object record: overwrite in place
if the key exists (keeping its position), append otherwise. -/
def assocSet (l : List (String × JsValue)) (key : String) (v : JsValue) :
    List (String × JsValue) :=
  match l with
  | [] => [(key, v)]
  | (k, w) :: rest =>
    if k = key then (k, v) :: rest else (k, w) :: assocSet rest key v

/-- Convert each element of a JS array in order, threading the mutable
`seen` set (the `value.map((v) => toJsValue(v, seen, depth + 1))` loop). -/
def convertVals (conv : Val → List Nat → JsValue × List Nat) :
    List Val → List Nat → List JsValue × List Nat
  | [], seen => ([], seen)
  | v :: rest, seen =>
    let (j, seen1) := conv v seen
    let (js, seen2) := convertVals conv rest seen1
    (j :: js, seen2)

/-- Convert the listed properties of a JS object in order, threading `seen`
(the `for (const key of keys) result[key] = toJsValue(obj[key], ...)` loop;
the pair's own value is `obj[key]` since keys of a JS object are distinct). -/
def convertEntries (conv : Val → List Nat → JsValue × List Nat) :
    List (String × Val) → List Nat → List (String × JsValue) × List Nat
  | [], seen => ([], seen)
  | (k, v) :: rest, seen =>
    let (j, seen1) := conv v seen
    let (js, seen2) := convertEntries conv rest seen1
    ((k, j) :: js, seen2)

/-- The `typeof value === "object"` branch of `toJsValue`, shared by fresh
objects and heap objects. `conv` is the conversion at `depth + 1`.
The special cases (an Excerpt-like `text` string property, Parameter-like
`name`/`parameterTypeExcerpt`, TypeParameter-like `name`/`constraintExcerpt`)
are tried in source order before the generic 20-key-capped walk; property
reads in the model are total, so the source's `try`/`catch` fallbacks
(`[Error reading property]`, `[Object]`) are unreachable. -/
def convertObjBody (conv : Val → List Nat → JsValue × List Nat)
    (props : List (String × Val)) (seen : List Nat) : JsValue × List Nat :=
  match getStrProp props "text" with
  | some t =>
    let (isEmptyJ, seen1) := conv (getProp props "isEmpty") seen
    (JsValue.objectV [("text", JsValue.stringV t), ("isEmpty", isEmptyJ)], seen1)
  | none =>
    if hasProp props "name" && hasProp props "parameterTypeExcerpt" then
      let (nameJ, seen1) := conv (getProp props "name") seen
      let (ptJ, seen2) := conv (getProp props "parameterTypeExcerpt") seen1
      let (optJ, seen3) := conv (getProp props "isOptional") seen2
      (JsValue.objectV
        [("name", nameJ), ("parameterTypeExcerpt", ptJ), ("isOptional", optJ)],
        seen3)
    else if hasProp props "name" && hasProp props "constraintExcerpt" then
      let (nameJ, seen1) := conv (getProp props "name") seen
      let (cJ, seen2) := conv (getProp props "constraintExcerpt") seen1
      let (dJ, seen3) := conv (getProp props "defaultTypeExcerpt") seen2
      let (optJ, seen4) := conv (getProp props "isOptional") seen3
      (JsValue.objectV
        [("name", nameJ), ("constraintExcerpt", cJ),
         ("defaultTypeExcerpt", dJ), ("isOptional", optJ)], seen4)
    else
      let (entries, seen1) := convertEntries conv (props.take 20) seen
      let result :=
        if props.length > 20 then
          assocSet entries "..."
            (JsValue.stringV
              ("[" ++ Nat.repr (props.length - 20) ++ " more properties]"))
        else entries
      (JsValue.objectV result, seen1)

/-- Fuel-indexed core of `toJsValue`; `fuel = 6 - depth`, see the header
comment. Branches follow the source's type tests in order. The final
`String(value)` fallback of the source (symbols, bigints) is unreachable
in the modelled value domain. -/
def toJsValueF (h : Heap) : Nat → Val → List Nat → JsValue × List Nat
  | 0, _, seen => (JsValue.stringV "[max depth reached]", seen)
  | fuel + 1, value, seen =>
    match value with
    | Val.undef => (JsValue.undefinedV, seen)
    | Val.nullV => (JsValue.nullV, seen)
    | Val.str s => (JsValue.stringV s, seen)
    | Val.num n => (JsValue.numberV n, seen)
    | Val.bool b => (JsValue.booleanV b, seen)
    | Val.funcV => (JsValue.functionV "[Function]", seen)
    | Val.arr elems =>
      let (converted, seen1) := convertVals (toJsValueF h fuel) elems seen
      (JsValue.arrayV converted elems.length, seen1)
    | Val.obj props => convertObjBody (toJsValueF h fuel) props seen
    | Val.ref addr =>
      match h addr with
      | HeapObj.harr elems =>
        if addr ∈ seen then (JsValue.circularV "[Circular Array]", seen)
        else
          let (converted, seen1) :=
            convertVals (toJsValueF h fuel) elems (addr :: seen)
          (JsValue.arrayV converted elems.length, seen1)
      | HeapObj.hobj props =>
        if addr ∈ seen then (JsValue.circularV "[Circular Object]", seen)
        else convertObjBody (toJsValueF h fuel) props (addr :: seen)

/-- Source `toJsValue(value, seen, depth)`: convert a JS value to a
serializable `JsValue`, guarding recursion with the `depth > 5` cap and
short-circuiting already-visited heap objects to `circular`. -/
def toJsValue (h : Heap) (value : Val) (seen : List Nat) (depth : Nat) :
    JsValue × List Nat :=
  toJsValueF h (6 - depth) value seen


/-! ### Raw JSON and the side table (`buildRawJsonMap`) -/

/-- Parsed JSON (the raw `.api.json` document). -/
inductive Json where
  | nullJ
  | boolJ (b : Bool)
  | numJ (n : Int)
  | strJ (s : String)
  | arrJ (elems : List Json)
  | objJ (props : List (String × Json))

/-- The side table: a `Map<string, Record<string, unknown>>`. -/
def RawMap : Type := List (String × Json)

/-- JS `Map.set`: overwrite in place if the key exists, append otherwise. -/
def mapSet (m : RawMap) (k : String) (v : Json) : RawMap :=
  match m with
  | [] => [(k, v)]
  | (k', v') :: rest =>
    if k' = k then (k', v) :: rest else (k', v') :: mapSet rest k v

/-- JS `Map.get`. -/
def mapLookup (m : RawMap) (k : String) : Option Json :=
  List.lookup k m

theorem sizeOf_lookup_json {props : List (String × Json)} {k : String} {v : Json}
    (h : List.lookup k props = some v) : sizeOf v < sizeOf props := by
  induction props with
  | nil => exact absurd h (by simp)
  | cons p rest ih =>
    obtain ⟨a, b⟩ := p
    rw [List.lookup_cons] at h
    by_cases hk : k == a
    · rw [hk] at h
      simp only [Option.some.injEq] at h
      subst h
      simp
      omega
    · rw [Bool.eq_false_iff.mpr hk] at h
      have := ih h
      simp
      omega

/-- The `members` array of a raw JSON object, when present; `[]` otherwise
(folding over the empty list is exactly the source's skipped recursion,
and JS property access on an array or missing field yields `undefined`,
which fails the `Array.isArray` test). -/
def jsonMembers (props : List (String × Json)) : List Json :=
  match List.lookup "members" props with
  | some (Json.arrJ ms) => ms
  | _ => []

theorem sizeOf_props_pos (props : List (String × Json)) : 0 < sizeOf props := by
  cases props with
  | nil => simp
  | cons p rest => simp

theorem sizeOf_jsonMembers (props : List (String × Json)) :
    sizeOf (jsonMembers props) < sizeOf (Json.objJ props) := by
  have hp := sizeOf_props_pos props
  rw [jsonMembers]
  rcases hmm : List.lookup "members" props with _ | mj
  · simp
    omega
  · cases mj with
    | arrJ ms =>
      have := sizeOf_lookup_json hmm
      simp at this ⊢
      omega
    | nullJ => simp; omega
    | boolJ b => simp; omega
    | numJ x => simp; omega
    | strJ s => simp; omega
    | objJ ps => simp; omega

mutual
/-- Source `buildRawJsonMap(jsonObj, map)`: walk the raw document's `members`
arrays and index every object carrying a truthy `canonicalReference`.
The source reads the reference through an `as string` cast; a truthy
non-string value there would become a non-string `Map` key that no
string-keyed `get` retrieves, so only nonempty-string references insert. -/
def buildRawJsonMap (jsonObj : Json) (map : RawMap) : RawMap :=
  match jsonObj with
  | Json.objJ props =>
    let map1 :=
      match List.lookup "canonicalReference" props with
      | some (Json.strJ cr) =>
        if cr = "" then map else mapSet map cr (Json.objJ props)
      | _ => map
    buildRawJsonMapList (jsonMembers props) map1
  | _ => map
termination_by sizeOf jsonObj
decreasing_by
  exact sizeOf_jsonMembers props

/-- Fold of `buildRawJsonMap` over a `members` array. -/
def buildRawJsonMapList (ms : List Json) (map : RawMap) : RawMap :=
  match ms with
  | [] => map
  | j :: rest => buildRawJsonMapList rest (buildRawJsonMap j map)
termination_by sizeOf ms
decreasing_by
  all_goals simp <;> omega
end

/-! ### The typed item tree (api-extractor-model collaborator data) -/

/-- The `ReleaseTag` enumeration of api-extractor-model. -/
inductive ReleaseTag where
  | None
  | Internal
  | Alpha
  | Beta
  | Public

/-- A source-text excerpt: the code reads `.text` and `.isEmpty`. -/
structure Excerpt where
  text : String
  isEmpty : Bool

/-- An excerpt token: the code reads `.kind` and `.text`. -/
structure ExcerptToken where
  kind : String
  text : String

/-- A parameter as read by the code. -/
structure Parameter where
  name : String
  parameterTypeExcerpt : Excerpt
  isOptional : Bool

/-- A type parameter as read by the code. -/
structure TypeParameter where
  name : String
  constraintExcerpt : Excerpt
  defaultTypeExcerpt : Excerpt
  isOptional : Bool

/-- A TSDoc node as read by `extractDocComment`: an optional string `text`
field plus a `nodes` array of children. -/
inductive DocNode where
  | mk (text : Option String) (nodes : List DocNode)

/-- The TSDoc comment fields the code reads. -/
structure TsdocComment where
  summarySection : Option DocNode
  remarksBlock : Bool
  returnsBlock : Bool
  deprecatedBlock : Bool
  paramCount : Nat
  typeParamCount : Nat

/-- A heritage clause (`HeritageType`): the code reads `.excerpt.text`. -/
structure HeritageType where
  excerpt : Excerpt

/-- The `ApiDeclaredItem` fields the code reads. -/
structure DeclaredData where
  excerpt : Excerpt
  excerptTokens : List ExcerptToken
  fileUrlPath : Option String

/-- The `ApiParameterListMixin` fields the code reads. -/
structure ParamListData where
  parameters : List Parameter
  overloadIndex : Nat

/-- The `ApiClass` fields the code reads. -/
structure ClassData where
  extendsType : Option HeritageType
  implementsTypes : List HeritageType

/-- The `ApiPropertyItem` fields the code reads. -/
structure PropertyData where
  propertyTypeExcerpt : Excerpt
  isEventProperty : Bool

/-- The capability record of one item. Each optional field models one
capability trait (mixin, base class or concrete class) probed by the code;
`some` means the runtime `isBaseClassOf` / `instanceof` test succeeds.
`canonicalReference` models `item.canonicalReference.toString()`. -/
structure ItemData where
  kind : String
  canonicalReference : String
  containerKey : String
  name : Option String
  releaseTag : Option ReleaseTag
  paramList : Option ParamListData
  typeParams : Option (List TypeParameter)
  returnTypeExcerpt : Option Excerpt
  isOptional : Option Bool
  isReadonly : Option Bool
  isStatic : Option Bool
  isAbstract : Option Bool
  isProtected : Option Bool
  isExported : Option Bool
  initializer : Option (Option Excerpt)
  container : Option Bool
  tsdoc : Option (Option TsdocComment)
  declared : Option DeclaredData
  classData : Option ClassData
  interfaceData : Option (List HeritageType)
  propertyData : Option PropertyData
  variableData : Option Excerpt
  typeAliasData : Option Excerpt

/-- An `ApiItem`: its capability data plus its ordered `members`. -/
inductive ApiItem where
  | mk (data : ItemData) (members : List ApiItem)

def ApiItem.data : ApiItem → ItemData
  | .mk d _ => d

def ApiItem.members : ApiItem → List ApiItem
  | .mk _ ms => ms

@[simp] theorem ApiItem.data_mk (d : ItemData) (ms : List ApiItem) :
    (ApiItem.mk d ms).data = d := rfl

@[simp] theorem ApiItem.members_mk (d : ItemData) (ms : List ApiItem) :
    (ApiItem.mk d ms).members = ms := rfl

/-! ### Field extraction helpers of the projector -/

/-- Source `getReleaseTagName(releaseTag)`: the `switch` maps the four public
variants to their names and everything else (the `default` case, i.e.
`ReleaseTag.None`) to `undefined`. -/
def getReleaseTagName (releaseTag : ReleaseTag) : Option String :=
  match releaseTag with
  | ReleaseTag.Public => some "Public"
  | ReleaseTag.Beta => some "Beta"
  | ReleaseTag.Alpha => some "Alpha"
  | ReleaseTag.Internal => some "Internal"
  | ReleaseTag.None => none

/-- The `text.trim() || undefined` idiom: trimmed text, absent when the
trimmed result is empty. -/
def trimOrNone (s : String) : Option String :=
  if s.trim = "" then none else some s.trim

mutual
/-- The `extractText` closure inside `extractDocComment`: append the node's
own string `text` (if any), then the texts of its `nodes` children. -/
def extractText : DocNode → String
  | DocNode.mk t ns =>
    (match t with | some s => s | none => "") ++ extractTextList ns

/-- Fold of `extractText` over a `nodes` array. -/
def extractTextList : List DocNode → String
  | [] => ""
  | n :: rest => extractText n ++ extractTextList rest
end

/-- Source `extractDocComment(item)`. -/
def extractDocComment (item : ApiItem) : Option String :=
  match item.data.tsdoc with
  | some (some c) =>
    match c.summarySection with
    | some summary => trimOrNone (extractText summary)
    | none => none
  | _ => none

/-- Source `extractExcerpt(item)`. -/
def extractExcerpt (item : ApiItem) : Option String :=
  match item.data.declared with
  | some dd => trimOrNone dd.excerpt.text
  | none => none

/-- The flattened parameter record of the view node. -/
structure ParameterInfo where
  name : String
  type : String
  isOptional : Bool

/-- The flattened type-parameter record of the view node. -/
structure TypeParameterInfo where
  name : String
  constraint : Option String
  defaultType : Option String

/-- Source `extractParameters(item)`. -/
def extractParameters (item : ApiItem) : Option (List ParameterInfo) :=
  match item.data.paramList with
  | some pl =>
    if pl.parameters.length > 0 then
      some (pl.parameters.map fun param =>
        { name := param.name
          type := param.parameterTypeExcerpt.text.trim
          isOptional := param.isOptional })
    else none
  | none => none

/-- Source `extractTypeParameters(item)`. -/
def extractTypeParameters (item : ApiItem) : Option (List TypeParameterInfo) :=
  match item.data.typeParams with
  | some tps =>
    if tps.length > 0 then
      some (tps.map fun tp =>
        { name := tp.name
          constraint := trimOrNone tp.constraintExcerpt.text
          defaultType := trimOrNone tp.defaultTypeExcerpt.text })
    else none
  | none => none

/-- Source `extractReturnType(item)`. -/
def extractReturnType (item : ApiItem) : Option String :=
  match item.data.returnTypeExcerpt with
  | some e => trimOrNone e.text
  | none => none

/-! ### `extractJsModel` -/

/-- The comprehensive JS model of one item. -/
structure JsModelView where
  mixins : List String
  properties : List (String × JsValue)

/-- The heap is immaterial for `extractJsModel`: every value it feeds to
`toJsValue` is a freshly constructed, reference-free structure. -/
def emptyHeap : Heap := fun _ => HeapObj.hobj []

/-- A JS `string | undefined` value. -/
def strValOrUndef (o : Option String) : Val :=
  match o with
  | some s => Val.str s
  | none => Val.undef

/-- The `s || undefined` idiom on a string value. -/
def truthyStrVal (s : String) : Val :=
  if s = "" then Val.undef else Val.str s

/-- An Excerpt-like fresh object literal `{ text, isEmpty }`. -/
def excerptVal (e : Excerpt) : Val :=
  Val.obj [("text", Val.str e.text), ("isEmpty", Val.bool e.isEmpty)]

/-- One `toJsValue(value, seen)` call of `extractJsModel` (depth defaults
to 0). The `WeakSet` created once per `extractJsModel` call is threaded
through every conversion in the source; the fresh reference-free values
built there never read nor extend it, so each conversion runs with the
empty seen set. -/
def cvJs (v : Val) : JsValue :=
  (toJsValue emptyHeap v [] 0).1

/-- Source `properties["name"]` of `extractJsModel`. -/
def propName (d : ItemData) : JsValue :=
  match d.name with
  | some n => cvJs (Val.str n)
  | none => JsValue.undefinedV

/-- Source `properties["releaseTag"]` of `extractJsModel`. -/
def propReleaseTag (d : ItemData) : JsValue :=
  match d.releaseTag with
  | some rt => cvJs (strValOrUndef (getReleaseTagName rt))
  | none => JsValue.undefinedV

/-- Source `properties["parameters"]` of `extractJsModel`. -/
def propParameters (d : ItemData) : JsValue :=
  match d.paramList with
  | some pl =>
    cvJs (Val.arr (pl.parameters.map fun p =>
      Val.obj [("name", Val.str p.name),
               ("type", Val.str p.parameterTypeExcerpt.text),
               ("isOptional", Val.bool p.isOptional)]))
  | none => JsValue.undefinedV

/-- Source `properties["overloadIndex"]` of `extractJsModel`. -/
def propOverloadIndex (d : ItemData) : JsValue :=
  match d.paramList with
  | some pl => cvJs (Val.num (pl.overloadIndex : Int))
  | none => JsValue.undefinedV

/-- Source `properties["typeParameters"]` of `extractJsModel`. -/
def propTypeParameters (d : ItemData) : JsValue :=
  match d.typeParams with
  | some tps =>
    cvJs (Val.arr (tps.map fun tp =>
      Val.obj [("name", Val.str tp.name),
               ("constraint", truthyStrVal tp.constraintExcerpt.text),
               ("defaultType", truthyStrVal tp.defaultTypeExcerpt.text),
               ("isOptional", Val.bool tp.isOptional)]))
  | none => JsValue.undefinedV

/-- Source `properties["returnTypeExcerpt"]` of `extractJsModel`. -/
def propReturnTypeExcerpt (d : ItemData) : JsValue :=
  match d.returnTypeExcerpt with
  | some e => cvJs (excerptVal e)
  | none => JsValue.undefinedV

/-- Source `properties["isOptional"]` of `extractJsModel`. -/
def propIsOptional (d : ItemData) : JsValue :=
  match d.isOptional with
  | some b => cvJs (Val.bool b)
  | none => JsValue.undefinedV

/-- Source `properties["isReadonly"]` of `extractJsModel`. -/
def propIsReadonly (d : ItemData) : JsValue :=
  match d.isReadonly with
  | some b => cvJs (Val.bool b)
  | none => JsValue.undefinedV

/-- Source `properties["isStatic"]` of `extractJsModel`. -/
def propIsStatic (d : ItemData) : JsValue :=
  match d.isStatic with
  | some b => cvJs (Val.bool b)
  | none => JsValue.undefinedV

/-- Source `properties["isAbstract"]` of `extractJsModel`. -/
def propIsAbstract (d : ItemData) : JsValue :=
  match d.isAbstract with
  | some b => cvJs (Val.bool b)
  | none => JsValue.undefinedV

/-- Source `properties["isProtected"]` of `extractJsModel`. -/
def propIsProtected (d : ItemData) : JsValue :=
  match d.isProtected with
  | some b => cvJs (Val.bool b)
  | none => JsValue.undefinedV

/-- Source `properties["isExported"]` of `extractJsModel`. -/
def propIsExported (d : ItemData) : JsValue :=
  match d.isExported with
  | some b => cvJs (Val.bool b)
  | none => JsValue.undefinedV

/-- Source `properties["initializerExcerpt"]` of `extractJsModel`. -/
def propInitializerExcerpt (d : ItemData) : JsValue :=
  match d.initializer with
  | some io =>
    cvJs (match io with
          | some e => excerptVal e
          | none => Val.undef)
  | none => JsValue.undefinedV

/-- Source `properties["members"]` of `extractJsModel` (the member summary list;
present only with `ApiItemContainerMixin`). -/
def propMembers (item : ApiItem) : JsValue :=
  match item.data.container with
  | some _ =>
    cvJs (Val.arr (item.members.map fun m =>
      Val.obj [("kind", Val.str m.data.kind),
               ("displayName", Val.str
                 (match m.data.name with
                  | some n => n
                  | none => "(" ++ m.data.kind ++ ")"))]))
  | none => JsValue.undefinedV

/-- Source `properties["preserveMemberOrder"]` of `extractJsModel`. -/
def propPreserveMemberOrder (d : ItemData) : JsValue :=
  match d.container with
  | some pmo => cvJs (Val.bool pmo)
  | none => JsValue.undefinedV

/-- Source `properties["tsdocComment"]` of `extractJsModel`. -/
def propTsdocComment (d : ItemData) : JsValue :=
  match d.tsdoc with
  | some (some c) =>
    cvJs (Val.obj
      [("hasSummary", Val.bool c.summarySection.isSome),
       ("hasRemarks", Val.bool c.remarksBlock),
       ("hasReturns", Val.bool c.returnsBlock),
       ("hasDeprecated", Val.bool c.deprecatedBlock),
       ("paramCount", Val.num (c.paramCount : Int)),
       ("typeParamCount", Val.num (c.typeParamCount : Int))])
  | some none => JsValue.undefinedV
  | none => JsValue.undefinedV

/-- Source `properties["excerpt"]` of `extractJsModel`. -/
def propExcerpt (d : ItemData) : JsValue :=
  match d.declared with
  | some dd => cvJs (excerptVal dd.excerpt)
  | none => JsValue.undefinedV

/-- Source `properties["excerptTokens"]` of `extractJsModel`. -/
def propExcerptTokens (d : ItemData) : JsValue :=
  match d.declared with
  | some dd =>
    cvJs (Val.arr (dd.excerptTokens.map fun t =>
      Val.obj [("kind", Val.str t.kind), ("text", Val.str t.text)]))
  | none => JsValue.undefinedV

/-- Source `properties["fileUrlPath"]` of `extractJsModel`. -/
def propFileUrlPath (d : ItemData) : JsValue :=
  match d.declared with
  | some dd => cvJs (strValOrUndef dd.fileUrlPath)
  | none => JsValue.undefinedV

/-- The class-only assignments of `extractJsModel`
(`extendsType`, `implementsTypes`): written only under
`item instanceof ApiClass`, with no `else` branch. -/
def classProps (d : ItemData) : List (String × JsValue) :=
  match d.classData with
  | some c =>
    [ ("extendsType",
        match c.extendsType with
        | some ht => cvJs (Val.obj [("text", Val.str ht.excerpt.text)])
        | none => JsValue.undefinedV),
      ("implementsTypes",
        cvJs (Val.arr (c.implementsTypes.map fun t =>
          Val.obj [("text", Val.str t.excerpt.text)]))) ]
  | none => []

/-- The interface-only assignment (`extendsTypes`), no `else` branch. -/
def interfaceProps (d : ItemData) : List (String × JsValue) :=
  match d.interfaceData with
  | some ts =>
    [ ("extendsTypes",
        cvJs (Val.arr (ts.map fun t =>
          Val.obj [("text", Val.str t.excerpt.text)]))) ]
  | none => []

/-- The property-item-only assignments (`propertyTypeExcerpt`,
`isEventProperty`), no `else` branch. -/
def propertyItemProps (d : ItemData) : List (String × JsValue) :=
  match d.propertyData with
  | some p =>
    [ ("propertyTypeExcerpt", cvJs (excerptVal p.propertyTypeExcerpt)),
      ("isEventProperty", cvJs (Val.bool p.isEventProperty)) ]
  | none => []

/-- The variable-only assignment (`variableTypeExcerpt`), no `else`. -/
def variableProps (d : ItemData) : List (String × JsValue) :=
  match d.variableData with
  | some e => [ ("variableTypeExcerpt", cvJs (excerptVal e)) ]
  | none => []

/-- The type-alias-only assignment (`typeExcerpt`), no `else`. -/
def typeAliasProps (d : ItemData) : List (String × JsValue) :=
  match d.typeAliasData with
  | some e => [ ("typeExcerpt", cvJs (excerptVal e)) ]
  | none => []

/-- The `mixins` labels pushed by `extractJsModel`, in execution order. -/
def jsModelMixins (d : ItemData) : List String :=
  (match d.name with | some _ => ["ApiNameMixin"] | none => []) ++
  (match d.releaseTag with | some _ => ["ApiReleaseTagMixin"] | none => []) ++
  (match d.paramList with | some _ => ["ApiParameterListMixin"] | none => []) ++
  (match d.typeParams with | some _ => ["ApiTypeParameterListMixin"] | none => []) ++
  (match d.returnTypeExcerpt with | some _ => ["ApiReturnTypeMixin"] | none => []) ++
  (match d.isOptional with | some _ => ["ApiOptionalMixin"] | none => []) ++
  (match d.isReadonly with | some _ => ["ApiReadonlyMixin"] | none => []) ++
  (match d.isStatic with | some _ => ["ApiStaticMixin"] | none => []) ++
  (match d.isAbstract with | some _ => ["ApiAbstractMixin"] | none => []) ++
  (match d.isProtected with | some _ => ["ApiProtectedMixin"] | none => []) ++
  (match d.isExported with | some _ => ["ApiExportedMixin"] | none => []) ++
  (match d.initializer with | some _ => ["ApiInitializerMixin"] | none => []) ++
  (match d.container with | some _ => ["ApiItemContainerMixin"] | none => []) ++
  (match d.tsdoc with | some _ => ["ApiDocumentedItem"] | none => []) ++
  (match d.declared with | some _ => ["ApiDeclaredItem"] | none => [])

/-- Source `extractJsModel(item)`: probe each capability in source order; a
present capability contributes its mixin label and its real values, an
absent one an explicit undefined tag at the same fixed key; the
`instanceof`-specific keys at the end are written only when the
corresponding test succeeds. Each `properties["X"] = ...` assignment of
the source is factored into the `propX` definition above; the record's
insertion order is the list order. -/
def extractJsModel (item : ApiItem) : JsModelView :=
  let d := item.data
  { mixins := jsModelMixins d
    properties :=
      [ ("name", propName d),
        ("releaseTag", propReleaseTag d),
        ("parameters", propParameters d),
        ("overloadIndex", propOverloadIndex d),
        ("typeParameters", propTypeParameters d),
        ("returnTypeExcerpt", propReturnTypeExcerpt d),
        ("isOptional", propIsOptional d),
        ("isReadonly", propIsReadonly d),
        ("isStatic", propIsStatic d),
        ("isAbstract", propIsAbstract d),
        ("isProtected", propIsProtected d),
        ("isExported", propIsExported d),
        ("initializerExcerpt", propInitializerExcerpt d),
        ("members", propMembers item),
        ("preserveMemberOrder", propPreserveMemberOrder d),
        ("kind", cvJs (Val.str d.kind)),
        ("canonicalReference", cvJs (Val.str d.canonicalReference)),
        ("containerKey", cvJs (Val.str d.containerKey)),
        ("tsdocComment", propTsdocComment d),
        ("excerpt", propExcerpt d),
        ("excerptTokens", propExcerptTokens d),
        ("fileUrlPath", propFileUrlPath d) ] ++
      classProps d ++ interfaceProps d ++ propertyItemProps d ++
      variableProps d ++ typeAliasProps d }

/-! ### The projection (`serializeApiItem`) -/

/-- One breadcrumb entry. -/
structure BreadcrumbItem where
  id : String
  name : String
  kind : String
deriving DecidableEq

/-- The non-recursive fields of a view node, in the source record's order;
the recursive `children` list (placed between `typeAliasType` and
`breadcrumb` in the source literal) is hoisted into the `ApiNode`
constructor to tie the recursive knot. -/
structure NodeCore where
  id : String
  kind : String
  name : String
  canonicalReference : String
  releaseTag : Option String
  docComment : Option String
  excerpt : Option String
  parameters : Option (List ParameterInfo)
  typeParameters : Option (List TypeParameterInfo)
  returnType : Option String
  isOptional : Option Bool
  isReadonly : Option Bool
  isStatic : Option Bool
  isAbstract : Option Bool
  isProtected : Option Bool
  extendsType : Option String
  implementsTypes : Option (List String)
  extendsTypes : Option (List String)
  propertyType : Option String
  variableType : Option String
  typeAliasType : Option String
  breadcrumb : List BreadcrumbItem
  rawJson : Option Json
  jsModel : JsModelView

/-- A view node: its flat fields plus its ordered children. -/
inductive ApiNode where
  | mk (core : NodeCore) (children : List ApiNode)

def ApiNode.core : ApiNode → NodeCore
  | .mk c _ => c

def ApiNode.children : ApiNode → List ApiNode
  | .mk _ cs => cs

@[simp] theorem ApiNode.core_mk (c : NodeCore) (cs : List ApiNode) :
    (ApiNode.mk c cs).core = c := rfl

@[simp] theorem ApiNode.children_mk (c : NodeCore) (cs : List ApiNode) :
    (ApiNode.mk c cs).children = cs := rfl

/-- Source `generateNodeId()`, that is `node-${++nodeIdCounter}` — increment the counter,
then format it. The process-wide mutable counter is passed explicitly and
returned updated. -/
def generateNodeId (counter : Nat) : String × Nat :=
  ("node-" ++ Nat.repr (counter + 1), counter + 1)

/-- Source `ApiNameMixin.isBaseClassOf(item) ? item.name : ""`. -/
def nodeName (item : ApiItem) : String :=
  match item.data.name with
  | some n => n
  | none => ""

/-- The breadcrumb entry `{ id, name: name || `(${kind})`, kind }`:
an empty name string is falsy, so it falls back to `(kind)`. -/
def breadcrumbEntry (id name kind : String) : BreadcrumbItem :=
  { id := id
    name := if name = "" then "(" ++ kind ++ ")" else name
    kind := kind }

/-- The `releaseTag` block of `serializeApiItem`. -/
def nodeReleaseTag (item : ApiItem) : Option String :=
  match item.data.releaseTag with
  | some rt => getReleaseTagName rt
  | none => none

/-- The `propertyType` block of `serializeApiItem`. -/
def nodePropertyType (item : ApiItem) : Option String :=
  match item.data.propertyData with
  | some p => trimOrNone p.propertyTypeExcerpt.text
  | none => none

/-- The `variableType` block of `serializeApiItem`. -/
def nodeVariableType (item : ApiItem) : Option String :=
  match item.data.variableData with
  | some e => trimOrNone e.text
  | none => none

/-- The `typeAliasType` block of `serializeApiItem`. -/
def nodeTypeAliasType (item : ApiItem) : Option String :=
  match item.data.typeAliasData with
  | some e => trimOrNone e.text
  | none => none

/-- The `extendsType` block of `serializeApiItem` (classes). -/
def nodeExtendsType (item : ApiItem) : Option String :=
  match item.data.classData with
  | some c =>
    match c.extendsType with
    | some ht => trimOrNone ht.excerpt.text
    | none => none
  | none => none

/-- The `implementsTypes` block of `serializeApiItem` (classes): entries
are trimmed but kept even when empty. -/
def nodeImplementsTypes (item : ApiItem) : Option (List String) :=
  match item.data.classData with
  | some c =>
    if c.implementsTypes.length > 0 then
      some (c.implementsTypes.map fun t => t.excerpt.text.trim)
    else none
  | none => none

/-- The `extendsTypes` block of `serializeApiItem` (interfaces). -/
def nodeExtendsTypes (item : ApiItem) : Option (List String) :=
  match item.data.interfaceData with
  | some ts =>
    if ts.length > 0 then some (ts.map fun t => t.excerpt.text.trim)
    else none
  | none => none

mutual
/-- Source `serializeApiItem(item, breadcrumb, rawJsonMap)`: project one item and,
recursively, its members. The process-wide id counter is threaded
explicitly: the returned `Nat` is its value after the whole subtree. -/
def serializeApiItem (item : ApiItem) (breadcrumb : List BreadcrumbItem)
    (rawJsonMap : RawMap) (counter : Nat) : ApiNode × Nat :=
  match item with
  | ApiItem.mk d ms =>
    let (id, c1) := generateNodeId counter
    let name := nodeName (ApiItem.mk d ms)
    let kind := d.kind
    let currentBreadcrumb := breadcrumb ++ [breadcrumbEntry id name kind]
    let canonicalRef := d.canonicalReference
    let rawJson := mapLookup rawJsonMap canonicalRef
    let jsModel := extractJsModel (ApiItem.mk d ms)
    let (children, c2) :=
      serializeMembers ms currentBreadcrumb rawJsonMap c1
    (ApiNode.mk
      { id := id
        kind := kind
        name := name
        canonicalReference := canonicalRef
        releaseTag := nodeReleaseTag (ApiItem.mk d ms)
        docComment := extractDocComment (ApiItem.mk d ms)
        excerpt := extractExcerpt (ApiItem.mk d ms)
        parameters := extractParameters (ApiItem.mk d ms)
        typeParameters := extractTypeParameters (ApiItem.mk d ms)
        returnType := extractReturnType (ApiItem.mk d ms)
        isOptional := d.isOptional
        isReadonly := d.isReadonly
        isStatic := d.isStatic
        isAbstract := d.isAbstract
        isProtected := d.isProtected
        extendsType := nodeExtendsType (ApiItem.mk d ms)
        implementsTypes := nodeImplementsTypes (ApiItem.mk d ms)
        extendsTypes := nodeExtendsTypes (ApiItem.mk d ms)
        propertyType := nodePropertyType (ApiItem.mk d ms)
        variableType := nodeVariableType (ApiItem.mk d ms)
        typeAliasType := nodeTypeAliasType (ApiItem.mk d ms)
        breadcrumb := currentBreadcrumb
        rawJson := rawJson
        jsModel := jsModel }
      children, c2)
termination_by sizeOf item
decreasing_by
  simp <;> omega

/-- The `for (const member of item.members)` recursion of
`serializeApiItem`, threading the id counter left to right. -/
def serializeMembers (ms : List ApiItem) (breadcrumb : List BreadcrumbItem)
    (rawJsonMap : RawMap) (counter : Nat) : List ApiNode × Nat :=
  match ms with
  | [] => ([], counter)
  | m :: rest =>
    let (n, c1) := serializeApiItem m breadcrumb rawJsonMap counter
    let (ns, c2) := serializeMembers rest breadcrumb rawJsonMap c1
    (n :: ns, c2)
termination_by sizeOf ms
decreasing_by
  all_goals simp <;> omega
end

/-! ### The request handler (`POST`) -/

/-- Source `MAX_PAYLOAD_SIZE`: 10 MiB. -/
def MAX_PAYLOAD_SIZE : Nat := 10 * 1024 * 1024

/-- Source `parseInt(s, 10)` on the digit strings a Content-Length header carries:
the value of the leading decimal-digit run, `NaN` (`none`) when there is
none (and `NaN > MAX_PAYLOAD_SIZE` is false). -/
def parseIntLeading (s : String) : Option Nat :=
  let ds := s.toList.takeWhile Char.isDigit
  if ds = [] then none
  else some (ds.foldl (fun acc c => 10 * acc + (c.toNat - 48)) 0)

/-- The request as the handler observes it: the Content-Length header when
present, and the result of `await request.json()` (`none` when the request
body is not valid JSON, in which case that call throws). -/
structure ReqModel where
  contentLength : Option String
  body : Option Json

/-- A `NextResponse.json` payload of the handler (status defaults to 200). -/
structure RespModel where
  success : Bool
  error : Option String
  status : Nat
  data : Option ApiNode

/-- The 413 payload-too-large response
(`Payload too large. Maximum size is ${MAX_PAYLOAD_SIZE / 1024 / 1024}MB`). -/
def tooLargeResp : RespModel :=
  { success := false
    error := some "Payload too large. Maximum size is 10MB"
    status := 413
    data := none }

/-- The missing-payload response. -/
def noJsonResp : RespModel :=
  { success := false
    error := some "No JSON string provided"
    status := 200
    data := none }

/-- The malformed-JSON response. -/
def invalidJsonResp : RespModel :=
  { success := false
    error := some "Invalid JSON: Parse error"
    status := 200
    data := none }

/-- The structurally-invalid-document response. -/
def invalidStructureResp : RespModel :=
  { success := false
    error := some "Invalid API Extractor JSON: missing \"metadata\" or \"kind\" field"
    status := 200
    data := none }

/-- The sanitized catch-all response of the outer `catch`. -/
def internalErrorResp : RespModel :=
  { success := false
    error := some "Failed to parse API Extractor JSON. Please ensure the file is valid."
    status := 200
    data := none }

/-- JS truthiness of `obj.key` on a parsed-JSON object: absent, `null`,
`false`, `0` and `""` are falsy. -/
def truthyField (props : List (String × Json)) (key : String) : Bool :=
  match List.lookup key props with
  | some Json.nullJ => false
  | some (Json.boolJ b) => b
  | some (Json.numJ n) => decide (n ≠ 0)
  | some (Json.strJ s) => decide (s ≠ "")
  | some (Json.arrJ _) => true
  | some (Json.objJ _) => true
  | none => false

/-- Source test `contentLength && parseInt(contentLength, 10) > MAX_PAYLOAD_SIZE`:
a missing or empty header is falsy, an unparseable one compares as `NaN`. -/
def headerTooLarge (req : ReqModel) : Bool :=
  match req.contentLength with
  | some cl =>
    match parseIntLeading cl with
    | some v => decide (v > MAX_PAYLOAD_SIZE)
    | none => false
  | none => false

/-- The `POST` handler's decision pipeline, as a function of the observed
request and two collaborator oracles: `parseJson` models `JSON.parse`
(`none` = throws) and `loadPackage` models
`new ApiModel().loadPackage(tempPath)` applied to the payload string
written to the temp file (`none` = throws; the outer `catch` maps either
oracle failure to the sanitized internal error). The temp-file write and
delete are I/O with no influence on the response. Reading `body.json` on
a `null` body throws (internal error); on a non-object body it is
`undefined` and hits the no-JSON guard, as does a non-string or empty
(falsy) `json` field. -/
def POST (req : ReqModel) (parseJson : String → Option Json)
    (loadPackage : String → Option ApiItem) : RespModel :=
  if headerTooLarge req then tooLargeResp
  else
    match req.body with
    | none => internalErrorResp
    | some Json.nullJ => internalErrorResp
    | some (Json.objJ bodyProps) =>
      (match List.lookup "json" bodyProps with
       | some (Json.strJ jsonString) =>
         if jsonString = "" then noJsonResp
         else if jsonString.length > MAX_PAYLOAD_SIZE then tooLargeResp
         else
           match parseJson jsonString with
           | none => invalidJsonResp
           | some Json.nullJ => internalErrorResp
           | some (Json.objJ props) =>
             if !truthyField props "metadata" || !truthyField props "kind" then
               invalidStructureResp
             else
               let rawJsonMap := buildRawJsonMap (Json.objJ props) []
               match loadPackage jsonString with
               | some apiPackage =>
                 let (rootNode, _) := serializeApiItem apiPackage [] rawJsonMap 0
                 { success := true, error := none, status := 200,
                   data := some rootNode }
               | none => internalErrorResp
           | some _ => invalidStructureResp
       | _ => noJsonResp)
    | some _ => noJsonResp

/-! ### Derived observations used by the statements -/

/-- Pure node-arity shape of a tree. -/
inductive ShapeTree where
  | node (children : List ShapeTree)

mutual
/-- Shape of an input item tree: one shape node per item, one child shape
per member, in order. -/
def itemShape : ApiItem → ShapeTree
  | ApiItem.mk _ ms => ShapeTree.node (itemShapeList ms)
def itemShapeList : List ApiItem → List ShapeTree
  | [] => []
  | m :: rest => itemShape m :: itemShapeList rest
end

mutual
/-- Shape of a projected view-node tree. -/
def nodeShape : ApiNode → ShapeTree
  | ApiNode.mk _ cs => ShapeTree.node (nodeShapeList cs)
def nodeShapeList : List ApiNode → List ShapeTree
  | [] => []
  | n :: rest => nodeShape n :: nodeShapeList rest
end

mutual
/-- Number of items in an input tree. -/
def itemCount : ApiItem → Nat
  | ApiItem.mk _ ms => 1 + itemCountList ms
def itemCountList : List ApiItem → Nat
  | [] => 0
  | m :: rest => itemCount m + itemCountList rest
end

mutual
/-- Number of nodes in a view tree. -/
def nodeCount : ApiNode → Nat
  | ApiNode.mk _ cs => 1 + nodeCountList cs
def nodeCountList : List ApiNode → Nat
  | [] => 0
  | n :: rest => nodeCount n + nodeCountList rest
end

mutual
/-- The ids of a view tree in pre-order: the node itself first, then each
child's full subtree before the next sibling. -/
def collectIds : ApiNode → List String
  | ApiNode.mk core cs => core.id :: collectIdsList cs
def collectIdsList : List ApiNode → List String
  | [] => []
  | n :: rest => collectIds n ++ collectIdsList rest
end

mutual
/-- Every node of a view tree (pre-order). -/
def allNodes : ApiNode → List ApiNode
  | ApiNode.mk core cs => ApiNode.mk core cs :: allNodesList cs
def allNodesList : List ApiNode → List ApiNode
  | [] => []
  | n :: rest => allNodes n ++ allNodesList rest
end

/-- The breadcrumb entry a view node contributes for itself:
`{id, name-or-fallback, kind}`. -/
def selfEntry (n : ApiNode) : BreadcrumbItem :=
  breadcrumbEntry n.core.id n.core.name n.core.kind

/-- One-step unfolding of `serializeApiItem` in projection-friendly form. -/
theorem serializeApiItem_mk (d : ItemData) (ms : List ApiItem)
    (bc : List BreadcrumbItem) (map : RawMap) (c : Nat) :
    serializeApiItem (ApiItem.mk d ms) bc map c =
      (ApiNode.mk
        { id := "node-" ++ Nat.repr (c + 1)
          kind := d.kind
          name := nodeName (ApiItem.mk d ms)
          canonicalReference := d.canonicalReference
          releaseTag := nodeReleaseTag (ApiItem.mk d ms)
          docComment := extractDocComment (ApiItem.mk d ms)
          excerpt := extractExcerpt (ApiItem.mk d ms)
          parameters := extractParameters (ApiItem.mk d ms)
          typeParameters := extractTypeParameters (ApiItem.mk d ms)
          returnType := extractReturnType (ApiItem.mk d ms)
          isOptional := d.isOptional
          isReadonly := d.isReadonly
          isStatic := d.isStatic
          isAbstract := d.isAbstract
          isProtected := d.isProtected
          extendsType := nodeExtendsType (ApiItem.mk d ms)
          implementsTypes := nodeImplementsTypes (ApiItem.mk d ms)
          extendsTypes := nodeExtendsTypes (ApiItem.mk d ms)
          propertyType := nodePropertyType (ApiItem.mk d ms)
          variableType := nodeVariableType (ApiItem.mk d ms)
          typeAliasType := nodeTypeAliasType (ApiItem.mk d ms)
          breadcrumb := bc ++
            [breadcrumbEntry ("node-" ++ Nat.repr (c + 1))
              (nodeName (ApiItem.mk d ms)) d.kind]
          rawJson := mapLookup map d.canonicalReference
          jsModel := extractJsModel (ApiItem.mk d ms) }
        (serializeMembers ms
          (bc ++ [breadcrumbEntry ("node-" ++ Nat.repr (c + 1))
            (nodeName (ApiItem.mk d ms)) d.kind]) map (c + 1)).1,
       (serializeMembers ms
          (bc ++ [breadcrumbEntry ("node-" ++ Nat.repr (c + 1))
            (nodeName (ApiItem.mk d ms)) d.kind]) map (c + 1)).2) := by
  rw [serializeApiItem]
  rfl

/-- One-step unfolding of `serializeMembers` on a cons cell. -/
theorem serializeMembers_cons (m : ApiItem) (rest : List ApiItem)
    (bc : List BreadcrumbItem) (map : RawMap) (c : Nat) :
    serializeMembers (m :: rest) bc map c =
      ((serializeApiItem m bc map c).1 ::
        (serializeMembers rest bc map (serializeApiItem m bc map c).2).1,
       (serializeMembers rest bc map (serializeApiItem m bc map c).2).2) := by
  rw [serializeMembers]

@[simp] theorem serializeMembers_nil (bc : List BreadcrumbItem)
    (map : RawMap) (c : Nat) : serializeMembers [] bc map c = ([], c) := by
  rw [serializeMembers]

/-! ### Injectivity of the id formatting -/

/-- Decode a decimal digit character. -/
def charToDigit (c : Char) : Nat := c.toNat - 48

/-- Value of a decimal digit string, most significant digit first. -/
def decodeDigits (l : List Char) : Nat :=
  l.foldl (fun acc c => 10 * acc + charToDigit c) 0

theorem charToDigit_digitChar {d : Nat} (hd : d < 10) :
    charToDigit (Nat.digitChar d) = d := by
  interval_cases d <;> rfl

/-- Accumulator-free, fuel-free form of `Nat.toDigits 10`. -/
def natDigits (n : Nat) : List Char :=
  if h : n / 10 = 0 then [Nat.digitChar (n % 10)]
  else natDigits (n / 10) ++ [Nat.digitChar (n % 10)]
termination_by n
decreasing_by
  have hn : n ≠ 0 := by
    intro h0
    subst h0
    simp at h
  exact Nat.div_lt_self (Nat.pos_of_ne_zero hn) (by omega)

theorem toDigitsCore_eq_natDigits (fuel n : Nat) (ds : List Char)
    (h : n < fuel) : Nat.toDigitsCore 10 fuel n ds = natDigits n ++ ds := by
  induction fuel generalizing n ds with
  | zero => omega
  | succ fuel ih =>
    rw [Nat.toDigitsCore]
    by_cases h10 : n / 10 = 0
    · rw [if_pos h10, natDigits, dif_pos h10]
      simp
    · rw [if_neg h10, natDigits, dif_neg h10]
      have hlt : n / 10 < fuel := by
        have h1 : 0 < n := by
          rcases Nat.eq_zero_or_pos n with h0 | h0
          · subst h0; simp at h10
          · exact h0
        have := Nat.div_lt_self h1 (show 1 < 10 by omega)
        omega
      rw [ih (n / 10) (Nat.digitChar (n % 10) :: ds) hlt]
      simp

theorem decodeDigits_natDigits (n : Nat) : decodeDigits (natDigits n) = n := by
  induction n using Nat.strong_induction_on with
  | _ n ih =>
    rw [natDigits]
    by_cases h10 : n / 10 = 0
    · rw [dif_pos h10]
      have hlt : n % 10 < 10 := Nat.mod_lt _ (by omega)
      simp only [decodeDigits, List.foldl_cons, List.foldl_nil]
      rw [charToDigit_digitChar hlt]
      omega
    · rw [dif_neg h10]
      have h1 : 0 < n := by
        rcases Nat.eq_zero_or_pos n with h0 | h0
        · subst h0; simp at h10
        · exact h0
      have hlt : n / 10 < n := Nat.div_lt_self h1 (by omega)
      have hmod : n % 10 < 10 := Nat.mod_lt _ (by omega)
      have := ih (n / 10) hlt
      simp only [decodeDigits, List.foldl_append, List.foldl_cons, List.foldl_nil] at this ⊢
      rw [this, charToDigit_digitChar hmod]
      omega

theorem Nat.repr_eq_natDigits (n : Nat) : Nat.repr n = (natDigits n).asString := by
  rw [Nat.repr, Nat.toDigits, toDigitsCore_eq_natDigits (n + 1) n [] (by omega)]
  simp

theorem Nat.repr_injective : Function.Injective Nat.repr := by
  intro a b hab
  rw [Nat.repr_eq_natDigits, Nat.repr_eq_natDigits] at hab
  have hd : natDigits a = natDigits b := by
    have := congrArg String.data hab
    simpa [List.asString] using this
  have := congrArg decodeDigits hd
  rwa [decodeDigits_natDigits, decodeDigits_natDigits] at this

/-- The id formatter `node-${k}` is injective. -/
theorem nodeId_injective :
    Function.Injective (fun k : Nat => "node-" ++ Nat.repr k) := by
  intro a b hab
  simp only at hab
  have hdata := congrArg String.data hab
  simp only [String.data_append] at hdata
  have := List.append_cancel_left hdata
  have hrepr : Nat.repr a = Nat.repr b := by
    cases ha : Nat.repr a with
    | mk la =>
      cases hb : Nat.repr b with
      | mk lb =>
        rw [ha, hb] at this
        simp at this
        simp [this]
  exact Nat.repr_injective hrepr

/-! ### Structural lemmas about the projection -/

mutual
theorem serialize_nodeShape (item : ApiItem) (bc : List BreadcrumbItem)
    (map : RawMap) (c : Nat) :
    nodeShape (serializeApiItem item bc map c).1 = itemShape item := by
  cases item with
  | mk d ms =>
    rw [serializeApiItem_mk]
    simp only [nodeShape, itemShape]
    exact congrArg ShapeTree.node (serializeMembers_nodeShape ms _ map (c + 1))
termination_by sizeOf item

theorem serializeMembers_nodeShape (ms : List ApiItem)
    (bc : List BreadcrumbItem) (map : RawMap) (c : Nat) :
    nodeShapeList (serializeMembers ms bc map c).1 = itemShapeList ms := by
  cases ms with
  | nil => rw [serializeMembers_nil]; rfl
  | cons m rest =>
    rw [serializeMembers_cons]
    simp only [nodeShapeList, itemShapeList]
    rw [serialize_nodeShape m bc map c,
       serializeMembers_nodeShape rest bc map (serializeApiItem m bc map c).2]
termination_by sizeOf ms
end

mutual
theorem serialize_nodeCount (item : ApiItem) (bc : List BreadcrumbItem)
    (map : RawMap) (c : Nat) :
    nodeCount (serializeApiItem item bc map c).1 = itemCount item := by
  cases item with
  | mk d ms =>
    rw [serializeApiItem_mk]
    simp only [nodeCount, itemCount]
    rw [serializeMembers_nodeCount ms _ map (c + 1)]
termination_by sizeOf item

theorem serializeMembers_nodeCount (ms : List ApiItem)
    (bc : List BreadcrumbItem) (map : RawMap) (c : Nat) :
    nodeCountList (serializeMembers ms bc map c).1 = itemCountList ms := by
  cases ms with
  | nil => rw [serializeMembers_nil]; rfl
  | cons m rest =>
    rw [serializeMembers_cons]
    simp only [nodeCountList, itemCountList]
    rw [serialize_nodeCount m bc map c,
       serializeMembers_nodeCount rest bc map (serializeApiItem m bc map c).2]
termination_by sizeOf ms
end

mutual
theorem serialize_counter (item : ApiItem) (bc : List BreadcrumbItem)
    (map : RawMap) (c : Nat) :
    (serializeApiItem item bc map c).2 = c + itemCount item := by
  cases item with
  | mk d ms =>
    rw [serializeApiItem_mk]
    simp only [itemCount]
    rw [serializeMembers_counter ms _ map (c + 1)]
    omega
termination_by sizeOf item

theorem serializeMembers_counter (ms : List ApiItem)
    (bc : List BreadcrumbItem) (map : RawMap) (c : Nat) :
    (serializeMembers ms bc map c).2 = c + itemCountList ms := by
  cases ms with
  | nil => rw [serializeMembers_nil]; simp [itemCountList]
  | cons m rest =>
    rw [serializeMembers_cons]
    simp only [itemCountList]
    rw [serializeMembers_counter rest bc map (serializeApiItem m bc map c).2,
       serialize_counter m bc map c]
    omega
termination_by sizeOf ms
end

mutual
theorem serialize_ids (item : ApiItem) (bc : List BreadcrumbItem)
    (map : RawMap) (c : Nat) :
    collectIds (serializeApiItem item bc map c).1 =
      (List.range' (c + 1) (itemCount item)).map
        (fun k => "node-" ++ Nat.repr k) := by
  cases item with
  | mk d ms =>
    rw [serializeApiItem_mk]
    simp only [collectIds, itemCount]
    rw [serializeMembers_ids ms _ map (c + 1)]
    rw [Nat.add_comm 1 (itemCountList ms), List.range'_succ]
    simp
termination_by sizeOf item

theorem serializeMembers_ids (ms : List ApiItem) (bc : List BreadcrumbItem)
    (map : RawMap) (c : Nat) :
    collectIdsList (serializeMembers ms bc map c).1 =
      (List.range' (c + 1) (itemCountList ms)).map
        (fun k => "node-" ++ Nat.repr k) := by
  cases ms with
  | nil => rw [serializeMembers_nil]; simp [collectIdsList, itemCountList]
  | cons m rest =>
    rw [serializeMembers_cons]
    simp only [collectIdsList, itemCountList]
    rw [serialize_ids m bc map c,
       serializeMembers_ids rest bc map (serializeApiItem m bc map c).2,
       serialize_counter m bc map c]
    rw [← List.map_append]
    rw [show c + itemCount m + 1 = (c + 1) + itemCount m by omega]
    rw [List.range'_append_1]
    rw [Nat.add_comm (itemCountList rest) (itemCount m)]
termination_by sizeOf ms
end

/-- The returned node's breadcrumb is the caller's breadcrumb plus the
node's own entry. -/
theorem serialize_breadcrumb (item : ApiItem) (bc : List BreadcrumbItem)
    (map : RawMap) (c : Nat) :
    (serializeApiItem item bc map c).1.core.breadcrumb =
      bc ++ [selfEntry (serializeApiItem item bc map c).1] := by
  cases item with
  | mk d ms =>
    rw [serializeApiItem_mk]
    simp [selfEntry]

mutual
theorem serialize_breadcrumb_inv (item : ApiItem) (bc : List BreadcrumbItem)
    (map : RawMap) (c : Nat) :
    ∀ n' ∈ allNodes (serializeApiItem item bc map c).1,
      n'.core.breadcrumb.getLast? = some (selfEntry n') ∧
      ∀ ch ∈ n'.children,
        ch.core.breadcrumb = n'.core.breadcrumb ++ [selfEntry ch] := by
  cases item with
  | mk d ms =>
    intro n' hn'
    rw [serializeApiItem_mk] at hn'
    simp only [allNodes, List.mem_cons] at hn'
    rcases hn' with hn' | hn'
    · subst hn'
      refine ⟨?_, ?_⟩
      · simp [selfEntry, List.getLast?_concat]
      · intro ch hch
        simp only [ApiNode.children_mk] at hch
        have h1 := (serializeMembers_breadcrumb_inv ms
          (bc ++ [breadcrumbEntry ("node-" ++ Nat.repr (c + 1))
            (nodeName (ApiItem.mk d ms)) d.kind]) map (c + 1)).1 ch hch
        rw [h1]
        simp
    · exact (serializeMembers_breadcrumb_inv ms
        (bc ++ [breadcrumbEntry ("node-" ++ Nat.repr (c + 1))
          (nodeName (ApiItem.mk d ms)) d.kind]) map (c + 1)).2 n' hn'
termination_by sizeOf item

theorem serializeMembers_breadcrumb_inv (ms : List ApiItem)
    (bc : List BreadcrumbItem) (map : RawMap) (c : Nat) :
    (∀ n ∈ (serializeMembers ms bc map c).1,
       n.core.breadcrumb = bc ++ [selfEntry n]) ∧
    (∀ n' ∈ allNodesList (serializeMembers ms bc map c).1,
       n'.core.breadcrumb.getLast? = some (selfEntry n') ∧
       ∀ ch ∈ n'.children,
         ch.core.breadcrumb = n'.core.breadcrumb ++ [selfEntry ch]) := by
  cases ms with
  | nil =>
    rw [serializeMembers_nil]
    constructor
    · intro n hn
      simp at hn
    · intro n' hn'
      simp [allNodesList] at hn'
  | cons m rest =>
    rw [serializeMembers_cons]
    have ihm := serialize_breadcrumb_inv m bc map c
    have ihr := serializeMembers_breadcrumb_inv rest bc map
      (serializeApiItem m bc map c).2
    constructor
    · intro n hn
      rcases List.mem_cons.mp hn with hn | hn
      · subst hn
        exact serialize_breadcrumb m bc map c
      · exact ihr.1 n hn
    · intro n' hn'
      simp only [allNodesList, List.mem_append] at hn'
      rcases hn' with hn' | hn'
      · exact ihm n' hn'
      · exact ihr.2 n' hn'
termination_by sizeOf ms
end

/-! ### The raw-JSON join invariant -/

/-- Field read on a raw JSON object. -/
def jsonField (j : Json) (key : String) : Option Json :=
  match j with
  | Json.objJ props => List.lookup key props
  | _ => none

/-- Every entry of the side table maps a key to an object whose
`canonicalReference` field is exactly that key. -/
def rawMapInv (m : RawMap) : Prop :=
  ∀ k v, mapLookup m k = some v →
    jsonField v "canonicalReference" = some (Json.strJ k)

theorem rawMapInv_nil : rawMapInv [] := by
  intro k v h
  simp [mapLookup] at h

theorem mapLookup_mapSet (m : RawMap) (k k' : String) (v : Json) :
    mapLookup (mapSet m k v) k' = if k' = k then some v else mapLookup m k' := by
  induction m with
  | nil =>
    simp only [mapSet, mapLookup, List.lookup_cons, List.lookup_nil]
    by_cases h : k' = k
    · subst h; simp
    · simp [beq_false_of_ne h, h]
  | cons p rest ih =>
    obtain ⟨a, b⟩ := p
    simp only [mapSet]
    by_cases hak : a = k
    · subst hak
      rw [if_pos rfl]
      simp only [mapLookup, List.lookup_cons]
      by_cases h : k' = a
      · subst h; simp
      · simp [beq_false_of_ne h, h]
    · rw [if_neg hak]
      simp only [mapLookup, List.lookup_cons] at ih ⊢
      by_cases h : k' = a
      · have hk'k : ¬k' = k := by
          rw [h]; exact fun hh => hak hh
        simp [h, hk'k, hak]
      · simp only [beq_false_of_ne h]
        exact ih

theorem rawMapInv_mapSet (m : RawMap) (k : String) (v : Json)
    (hm : rawMapInv m)
    (hv : jsonField v "canonicalReference" = some (Json.strJ k)) :
    rawMapInv (mapSet m k v) := by
  intro k' v' h
  rw [mapLookup_mapSet] at h
  by_cases hk : k' = k
  · rw [if_pos hk] at h
    cases h
    rw [hv, hk]
  · rw [if_neg hk] at h
    exact hm k' v' h

mutual
theorem buildRawJsonMap_inv (j : Json) (m : RawMap) (hm : rawMapInv m) :
    rawMapInv (buildRawJsonMap j m) := by
  cases j with
  | objJ props =>
    rw [buildRawJsonMap]
    refine buildRawJsonMapList_inv (jsonMembers props) _ ?_
    rcases hcr : List.lookup "canonicalReference" props with _ | cj
    · simp only [hcr]
      exact hm
    · cases cj with
      | strJ cr =>
        simp only [hcr]
        by_cases h0 : cr = ""
        · simp only [if_pos h0]
          exact hm
        · simp only [if_neg h0]
          exact rawMapInv_mapSet m cr (Json.objJ props) hm
            (by simp [jsonField, hcr])
      | nullJ => simp only [hcr]; exact hm
      | boolJ b => simp only [hcr]; exact hm
      | numJ x => simp only [hcr]; exact hm
      | arrJ xs => simp only [hcr]; exact hm
      | objJ ps => simp only [hcr]; exact hm
  | nullJ =>
    rw [buildRawJsonMap]
    · exact hm
    all_goals intro pr h; exact Json.noConfusion h
  | boolJ b =>
    rw [buildRawJsonMap]
    · exact hm
    all_goals intro pr h; exact Json.noConfusion h
  | numJ x =>
    rw [buildRawJsonMap]
    · exact hm
    all_goals intro pr h; exact Json.noConfusion h
  | strJ s =>
    rw [buildRawJsonMap]
    · exact hm
    all_goals intro pr h; exact Json.noConfusion h
  | arrJ xs =>
    rw [buildRawJsonMap]
    · exact hm
    all_goals intro pr h; exact Json.noConfusion h
termination_by sizeOf j
decreasing_by
  exact sizeOf_jsonMembers props

theorem buildRawJsonMapList_inv (ms : List Json) (m : RawMap)
    (hm : rawMapInv m) : rawMapInv (buildRawJsonMapList ms m) := by
  cases ms with
  | nil => rw [buildRawJsonMapList]; exact hm
  | cons j rest =>
    rw [buildRawJsonMapList]
    exact buildRawJsonMapList_inv rest _ (buildRawJsonMap_inv j m hm)
termination_by sizeOf ms
decreasing_by
  all_goals simp <;> omega
end

mutual
theorem serialize_rawJson (item : ApiItem) (bc : List BreadcrumbItem)
    (map : RawMap) (c : Nat) (hinv : rawMapInv map) :
    ∀ n' ∈ allNodes (serializeApiItem item bc map c).1, ∀ r,
      n'.core.rawJson = some r →
      jsonField r "canonicalReference" =
        some (Json.strJ n'.core.canonicalReference) := by
  cases item with
  | mk d ms =>
    intro n' hn' r hr
    rw [serializeApiItem_mk] at hn'
    simp only [allNodes, List.mem_cons] at hn'
    rcases hn' with hn' | hn'
    · subst hn'
      simp only [ApiNode.core_mk] at hr ⊢
      exact hinv d.canonicalReference r hr
    · exact serializeMembers_rawJson ms _ map (c + 1) hinv n' hn' r hr
termination_by sizeOf item

theorem serializeMembers_rawJson (ms : List ApiItem)
    (bc : List BreadcrumbItem) (map : RawMap) (c : Nat)
    (hinv : rawMapInv map) :
    ∀ n' ∈ allNodesList (serializeMembers ms bc map c).1, ∀ r,
      n'.core.rawJson = some r →
      jsonField r "canonicalReference" =
        some (Json.strJ n'.core.canonicalReference) := by
  cases ms with
  | nil =>
    rw [serializeMembers_nil]
    intro n' hn'
    simp [allNodesList] at hn'
  | cons m rest =>
    rw [serializeMembers_cons]
    intro n' hn' r hr
    simp only [allNodesList, List.mem_append] at hn'
    rcases hn' with hn' | hn'
    · exact serialize_rawJson m bc map c hinv n' hn' r hr
    · exact serializeMembers_rawJson rest bc map
        (serializeApiItem m bc map c).2 hinv n' hn' r hr
termination_by sizeOf ms
end

/-! ### Key-presence lemmas for `jsModel.properties` -/

/-- Lookup of one key in an item's `jsModel.properties`. -/
def jsProp (item : ApiItem) (k : String) : Option JsValue :=
  List.lookup k (extractJsModel item).properties

theorem lookup_classProps_skip (d : ItemData) (k : String)
    (l : List (String × JsValue)) (h1 : k ≠ "extendsType")
    (h2 : k ≠ "implementsTypes") :
    List.lookup k (classProps d ++ l) = List.lookup k l := by
  cases hc : d.classData <;>
    simp [classProps, hc, List.lookup_cons, beq_false_of_ne h1, beq_false_of_ne h2]

theorem lookup_interfaceProps_skip (d : ItemData) (k : String)
    (l : List (String × JsValue)) (h1 : k ≠ "extendsTypes") :
    List.lookup k (interfaceProps d ++ l) = List.lookup k l := by
  cases hc : d.interfaceData <;>
    simp [interfaceProps, hc, List.lookup_cons, beq_false_of_ne h1]

theorem lookup_propertyItemProps_skip (d : ItemData) (k : String)
    (l : List (String × JsValue)) (h1 : k ≠ "propertyTypeExcerpt")
    (h2 : k ≠ "isEventProperty") :
    List.lookup k (propertyItemProps d ++ l) = List.lookup k l := by
  cases hc : d.propertyData <;>
    simp [propertyItemProps, hc, List.lookup_cons, beq_false_of_ne h1,
      beq_false_of_ne h2]

theorem lookup_variableProps_skip (d : ItemData) (k : String)
    (l : List (String × JsValue)) (h1 : k ≠ "variableTypeExcerpt") :
    List.lookup k (variableProps d ++ l) = List.lookup k l := by
  cases hc : d.variableData <;>
    simp [variableProps, hc, List.lookup_cons, beq_false_of_ne h1]

theorem lookup_typeAliasProps (d : ItemData) (k : String)
    (h1 : k ≠ "typeExcerpt") :
    List.lookup k (typeAliasProps d) = none := by
  cases hc : d.typeAliasData <;>
    simp [typeAliasProps, hc, List.lookup_cons, beq_false_of_ne h1]


/-- Claim C4 (amended): for every projected node, `jsModel.properties`
contains an entry for every mixin-probed capability key (name, releaseTag,
parameters, overloadIndex, typeParameters, returnTypeExcerpt, the six
boolean modifiers, initializerExcerpt, members, preserveMemberOrder,
tsdocComment, excerpt, excerptTokens, fileUrlPath) and the base keys
(kind, canonicalReference, containerKey); when such a capability is absent
on the source item the entry is an explicit undefined-tagged value, never
a missing key. The `instanceof`-specific keys (extendsType,
implementsTypes, extendsTypes, propertyTypeExcerpt, isEventProperty,
variableTypeExcerpt, typeExcerpt), by contrast, are present exactly when
the corresponding class test succeeds, and are missing keys otherwise. -/
theorem C4_jsModel_keys_amended (item : ApiItem) :
    (((jsProp item "name").isSome = true) ∧
    (item.data.name = none → jsProp item "name" = some JsValue.undefinedV) ∧
    ((jsProp item "releaseTag").isSome = true) ∧
    (item.data.releaseTag = none → jsProp item "releaseTag" = some JsValue.undefinedV) ∧
    ((jsProp item "parameters").isSome = true) ∧
    (item.data.paramList = none → jsProp item "parameters" = some JsValue.undefinedV) ∧
    ((jsProp item "overloadIndex").isSome = true) ∧
    (item.data.paramList = none → jsProp item "overloadIndex" = some JsValue.undefinedV) ∧
    ((jsProp item "typeParameters").isSome = true) ∧
    (item.data.typeParams = none → jsProp item "typeParameters" = some JsValue.undefinedV) ∧
    ((jsProp item "returnTypeExcerpt").isSome = true) ∧
    (item.data.returnTypeExcerpt = none → jsProp item "returnTypeExcerpt" = some JsValue.undefinedV) ∧
    ((jsProp item "isOptional").isSome = true) ∧
    (item.data.isOptional = none → jsProp item "isOptional" = some JsValue.undefinedV) ∧
    ((jsProp item "isReadonly").isSome = true) ∧
    (item.data.isReadonly = none → jsProp item "isReadonly" = some JsValue.undefinedV) ∧
    ((jsProp item "isStatic").isSome = true) ∧
    (item.data.isStatic = none → jsProp item "isStatic" = some JsValue.undefinedV) ∧
    ((jsProp item "isAbstract").isSome = true) ∧
    (item.data.isAbstract = none → jsProp item "isAbstract" = some JsValue.undefinedV) ∧
    ((jsProp item "isProtected").isSome = true) ∧
    (item.data.isProtected = none → jsProp item "isProtected" = some JsValue.undefinedV) ∧
    ((jsProp item "isExported").isSome = true) ∧
    (item.data.isExported = none → jsProp item "isExported" = some JsValue.undefinedV) ∧
    ((jsProp item "initializerExcerpt").isSome = true) ∧
    (item.data.initializer = none → jsProp item "initializerExcerpt" = some JsValue.undefinedV) ∧
    ((jsProp item "members").isSome = true) ∧
    (item.data.container = none → jsProp item "members" = some JsValue.undefinedV) ∧
    ((jsProp item "preserveMemberOrder").isSome = true) ∧
    (item.data.container = none → jsProp item "preserveMemberOrder" = some JsValue.undefinedV) ∧
    ((jsProp item "tsdocComment").isSome = true) ∧
    (item.data.tsdoc = none → jsProp item "tsdocComment" = some JsValue.undefinedV) ∧
    ((jsProp item "excerpt").isSome = true) ∧
    (item.data.declared = none → jsProp item "excerpt" = some JsValue.undefinedV) ∧
    ((jsProp item "excerptTokens").isSome = true) ∧
    (item.data.declared = none → jsProp item "excerptTokens" = some JsValue.undefinedV) ∧
    ((jsProp item "fileUrlPath").isSome = true) ∧
    (item.data.declared = none → jsProp item "fileUrlPath" = some JsValue.undefinedV) ∧
    ((jsProp item "kind").isSome = true) ∧
    ((jsProp item "canonicalReference").isSome = true) ∧
    ((jsProp item "containerKey").isSome = true) ∧
    (item.data.classData = none → jsProp item "extendsType" = none) ∧
    (item.data.classData ≠ none → (jsProp item "extendsType").isSome = true) ∧
    (item.data.classData = none → jsProp item "implementsTypes" = none) ∧
    (item.data.classData ≠ none → (jsProp item "implementsTypes").isSome = true) ∧
    (item.data.interfaceData = none → jsProp item "extendsTypes" = none) ∧
    (item.data.interfaceData ≠ none → (jsProp item "extendsTypes").isSome = true) ∧
    (item.data.propertyData = none → jsProp item "propertyTypeExcerpt" = none) ∧
    (item.data.propertyData ≠ none → (jsProp item "propertyTypeExcerpt").isSome = true) ∧
    (item.data.propertyData = none → jsProp item "isEventProperty" = none) ∧
    (item.data.propertyData ≠ none → (jsProp item "isEventProperty").isSome = true) ∧
    (item.data.variableData = none → jsProp item "variableTypeExcerpt" = none) ∧
    (item.data.variableData ≠ none → (jsProp item "variableTypeExcerpt").isSome = true) ∧
    (item.data.typeAliasData = none → jsProp item "typeExcerpt" = none) ∧
    (item.data.typeAliasData ≠ none → (jsProp item "typeExcerpt").isSome = true)) := by
  refine ⟨?_, ?_, ?_, ?_, ?_, ?_, ?_, ?_, ?_, ?_, ?_, ?_, ?_, ?_, ?_, ?_, ?_, ?_, ?_, ?_, ?_, ?_, ?_, ?_, ?_, ?_, ?_, ?_, ?_, ?_, ?_, ?_, ?_, ?_, ?_, ?_, ?_, ?_, ?_, ?_, ?_, ?_, ?_, ?_, ?_, ?_, ?_, ?_, ?_, ?_, ?_, ?_, ?_, ?_, ?_⟩
  · rfl
  · intro h
    have e : jsProp item "name" = some (propName item.data) := rfl
    rw [e, show propName item.data = JsValue.undefinedV from by simp [propName, h]]
  · rfl
  · intro h
    have e : jsProp item "releaseTag" = some (propReleaseTag item.data) := rfl
    rw [e, show propReleaseTag item.data = JsValue.undefinedV from by simp [propReleaseTag, h]]
  · rfl
  · intro h
    have e : jsProp item "parameters" = some (propParameters item.data) := rfl
    rw [e, show propParameters item.data = JsValue.undefinedV from by simp [propParameters, h]]
  · rfl
  · intro h
    have e : jsProp item "overloadIndex" = some (propOverloadIndex item.data) := rfl
    rw [e, show propOverloadIndex item.data = JsValue.undefinedV from by simp [propOverloadIndex, h]]
  · rfl
  · intro h
    have e : jsProp item "typeParameters" = some (propTypeParameters item.data) := rfl
    rw [e, show propTypeParameters item.data = JsValue.undefinedV from by simp [propTypeParameters, h]]
  · rfl
  · intro h
    have e : jsProp item "returnTypeExcerpt" = some (propReturnTypeExcerpt item.data) := rfl
    rw [e, show propReturnTypeExcerpt item.data = JsValue.undefinedV from by simp [propReturnTypeExcerpt, h]]
  · rfl
  · intro h
    have e : jsProp item "isOptional" = some (propIsOptional item.data) := rfl
    rw [e, show propIsOptional item.data = JsValue.undefinedV from by simp [propIsOptional, h]]
  · rfl
  · intro h
    have e : jsProp item "isReadonly" = some (propIsReadonly item.data) := rfl
    rw [e, show propIsReadonly item.data = JsValue.undefinedV from by simp [propIsReadonly, h]]
  · rfl
  · intro h
    have e : jsProp item "isStatic" = some (propIsStatic item.data) := rfl
    rw [e, show propIsStatic item.data = JsValue.undefinedV from by simp [propIsStatic, h]]
  · rfl
  · intro h
    have e : jsProp item "isAbstract" = some (propIsAbstract item.data) := rfl
    rw [e, show propIsAbstract item.data = JsValue.undefinedV from by simp [propIsAbstract, h]]
  · rfl
  · intro h
    have e : jsProp item "isProtected" = some (propIsProtected item.data) := rfl
    rw [e, show propIsProtected item.data = JsValue.undefinedV from by simp [propIsProtected, h]]
  · rfl
  · intro h
    have e : jsProp item "isExported" = some (propIsExported item.data) := rfl
    rw [e, show propIsExported item.data = JsValue.undefinedV from by simp [propIsExported, h]]
  · rfl
  · intro h
    have e : jsProp item "initializerExcerpt" = some (propInitializerExcerpt item.data) := rfl
    rw [e, show propInitializerExcerpt item.data = JsValue.undefinedV from by simp [propInitializerExcerpt, h]]
  · rfl
  · intro h
    have e : jsProp item "members" = some (propMembers item) := rfl
    rw [e, show propMembers item = JsValue.undefinedV from by simp [propMembers, h]]
  · rfl
  · intro h
    have e : jsProp item "preserveMemberOrder" = some (propPreserveMemberOrder item.data) := rfl
    rw [e, show propPreserveMemberOrder item.data = JsValue.undefinedV from by simp [propPreserveMemberOrder, h]]
  · rfl
  · intro h
    have e : jsProp item "tsdocComment" = some (propTsdocComment item.data) := rfl
    rw [e, show propTsdocComment item.data = JsValue.undefinedV from by simp [propTsdocComment, h]]
  · rfl
  · intro h
    have e : jsProp item "excerpt" = some (propExcerpt item.data) := rfl
    rw [e, show propExcerpt item.data = JsValue.undefinedV from by simp [propExcerpt, h]]
  · rfl
  · intro h
    have e : jsProp item "excerptTokens" = some (propExcerptTokens item.data) := rfl
    rw [e, show propExcerptTokens item.data = JsValue.undefinedV from by simp [propExcerptTokens, h]]
  · rfl
  · intro h
    have e : jsProp item "fileUrlPath" = some (propFileUrlPath item.data) := rfl
    rw [e, show propFileUrlPath item.data = JsValue.undefinedV from by simp [propFileUrlPath, h]]
  · rfl
  · rfl
  · rfl
  · intro hf
    have e : jsProp item "extendsType" =
        List.lookup "extendsType" (classProps item.data ++ interfaceProps item.data ++
          propertyItemProps item.data ++ variableProps item.data ++
          typeAliasProps item.data) := rfl
    rw [e]
    simp only [List.append_assoc]
    rw [show classProps item.data = [] from by simp [classProps, hf]]
    rw [List.nil_append]
    rw [lookup_interfaceProps_skip _ _ _ (by decide)]
    rw [lookup_propertyItemProps_skip _ _ _ (by decide) (by decide)]
    rw [lookup_variableProps_skip _ _ _ (by decide)]
    exact lookup_typeAliasProps _ _ (by decide)
  · intro hf
    rcases h : item.data.classData with _ | c
    · exact absurd h hf
    · have e : jsProp item "extendsType" =
          List.lookup "extendsType" (classProps item.data ++ interfaceProps item.data ++
          propertyItemProps item.data ++ variableProps item.data ++
          typeAliasProps item.data) := rfl
      rw [e]
      simp only [List.append_assoc]
      simp [classProps, h, List.lookup_cons]
  · intro hf
    have e : jsProp item "implementsTypes" =
        List.lookup "implementsTypes" (classProps item.data ++ interfaceProps item.data ++
          propertyItemProps item.data ++ variableProps item.data ++
          typeAliasProps item.data) := rfl
    rw [e]
    simp only [List.append_assoc]
    rw [show classProps item.data = [] from by simp [classProps, hf]]
    rw [List.nil_append]
    rw [lookup_interfaceProps_skip _ _ _ (by decide)]
    rw [lookup_propertyItemProps_skip _ _ _ (by decide) (by decide)]
    rw [lookup_variableProps_skip _ _ _ (by decide)]
    exact lookup_typeAliasProps _ _ (by decide)
  · intro hf
    rcases h : item.data.classData with _ | c
    · exact absurd h hf
    · have e : jsProp item "implementsTypes" =
          List.lookup "implementsTypes" (classProps item.data ++ interfaceProps item.data ++
          propertyItemProps item.data ++ variableProps item.data ++
          typeAliasProps item.data) := rfl
      rw [e]
      simp only [List.append_assoc]
      simp [classProps, h, List.lookup_cons]
  · intro hf
    have e : jsProp item "extendsTypes" =
        List.lookup "extendsTypes" (classProps item.data ++ interfaceProps item.data ++
          propertyItemProps item.data ++ variableProps item.data ++
          typeAliasProps item.data) := rfl
    rw [e]
    simp only [List.append_assoc]
    rw [lookup_classProps_skip _ _ _ (by decide) (by decide)]
    rw [show interfaceProps item.data = [] from by simp [interfaceProps, hf]]
    rw [List.nil_append]
    rw [lookup_propertyItemProps_skip _ _ _ (by decide) (by decide)]
    rw [lookup_variableProps_skip _ _ _ (by decide)]
    exact lookup_typeAliasProps _ _ (by decide)
  · intro hf
    rcases h : item.data.interfaceData with _ | c
    · exact absurd h hf
    · have e : jsProp item "extendsTypes" =
          List.lookup "extendsTypes" (classProps item.data ++ interfaceProps item.data ++
          propertyItemProps item.data ++ variableProps item.data ++
          typeAliasProps item.data) := rfl
      rw [e]
      simp only [List.append_assoc]
      rw [lookup_classProps_skip _ _ _ (by decide) (by decide)]
      simp [interfaceProps, h, List.lookup_cons]
  · intro hf
    have e : jsProp item "propertyTypeExcerpt" =
        List.lookup "propertyTypeExcerpt" (classProps item.data ++ interfaceProps item.data ++
          propertyItemProps item.data ++ variableProps item.data ++
          typeAliasProps item.data) := rfl
    rw [e]
    simp only [List.append_assoc]
    rw [lookup_classProps_skip _ _ _ (by decide) (by decide)]
    rw [lookup_interfaceProps_skip _ _ _ (by decide)]
    rw [show propertyItemProps item.data = [] from by simp [propertyItemProps, hf]]
    rw [List.nil_append]
    rw [lookup_variableProps_skip _ _ _ (by decide)]
    exact lookup_typeAliasProps _ _ (by decide)
  · intro hf
    rcases h : item.data.propertyData with _ | c
    · exact absurd h hf
    · have e : jsProp item "propertyTypeExcerpt" =
          List.lookup "propertyTypeExcerpt" (classProps item.data ++ interfaceProps item.data ++
          propertyItemProps item.data ++ variableProps item.data ++
          typeAliasProps item.data) := rfl
      rw [e]
      simp only [List.append_assoc]
      rw [lookup_classProps_skip _ _ _ (by decide) (by decide)]
      rw [lookup_interfaceProps_skip _ _ _ (by decide)]
      simp [propertyItemProps, h, List.lookup_cons]
  · intro hf
    have e : jsProp item "isEventProperty" =
        List.lookup "isEventProperty" (classProps item.data ++ interfaceProps item.data ++
          propertyItemProps item.data ++ variableProps item.data ++
          typeAliasProps item.data) := rfl
    rw [e]
    simp only [List.append_assoc]
    rw [lookup_classProps_skip _ _ _ (by decide) (by decide)]
    rw [lookup_interfaceProps_skip _ _ _ (by decide)]
    rw [show propertyItemProps item.data = [] from by simp [propertyItemProps, hf]]
    rw [List.nil_append]
    rw [lookup_variableProps_skip _ _ _ (by decide)]
    exact lookup_typeAliasProps _ _ (by decide)
  · intro hf
    rcases h : item.data.propertyData with _ | c
    · exact absurd h hf
    · have e : jsProp item "isEventProperty" =
          List.lookup "isEventProperty" (classProps item.data ++ interfaceProps item.data ++
          propertyItemProps item.data ++ variableProps item.data ++
          typeAliasProps item.data) := rfl
      rw [e]
      simp only [List.append_assoc]
      rw [lookup_classProps_skip _ _ _ (by decide) (by decide)]
      rw [lookup_interfaceProps_skip _ _ _ (by decide)]
      simp [propertyItemProps, h, List.lookup_cons]
  · intro hf
    have e : jsProp item "variableTypeExcerpt" =
        List.lookup "variableTypeExcerpt" (classProps item.data ++ interfaceProps item.data ++
          propertyItemProps item.data ++ variableProps item.data ++
          typeAliasProps item.data) := rfl
    rw [e]
    simp only [List.append_assoc]
    rw [lookup_classProps_skip _ _ _ (by decide) (by decide)]
    rw [lookup_interfaceProps_skip _ _ _ (by decide)]
    rw [lookup_propertyItemProps_skip _ _ _ (by decide) (by decide)]
    rw [show variableProps item.data = [] from by simp [variableProps, hf]]
    rw [List.nil_append]
    exact lookup_typeAliasProps _ _ (by decide)
  · intro hf
    rcases h : item.data.variableData with _ | c
    · exact absurd h hf
    · have e : jsProp item "variableTypeExcerpt" =
          List.lookup "variableTypeExcerpt" (classProps item.data ++ interfaceProps item.data ++
          propertyItemProps item.data ++ variableProps item.data ++
          typeAliasProps item.data) := rfl
      rw [e]
      simp only [List.append_assoc]
      rw [lookup_classProps_skip _ _ _ (by decide) (by decide)]
      rw [lookup_interfaceProps_skip _ _ _ (by decide)]
      rw [lookup_propertyItemProps_skip _ _ _ (by decide) (by decide)]
      simp [variableProps, h, List.lookup_cons]
  · intro hf
    have e : jsProp item "typeExcerpt" =
        List.lookup "typeExcerpt" (classProps item.data ++ interfaceProps item.data ++
          propertyItemProps item.data ++ variableProps item.data ++
          typeAliasProps item.data) := rfl
    rw [e]
    simp only [List.append_assoc]
    rw [lookup_classProps_skip _ _ _ (by decide) (by decide)]
    rw [lookup_interfaceProps_skip _ _ _ (by decide)]
    rw [lookup_propertyItemProps_skip _ _ _ (by decide) (by decide)]
    rw [lookup_variableProps_skip _ _ _ (by decide)]
    simp [typeAliasProps, hf]
  · intro hf
    rcases h : item.data.typeAliasData with _ | c
    · exact absurd h hf
    · have e : jsProp item "typeExcerpt" =
          List.lookup "typeExcerpt" (classProps item.data ++ interfaceProps item.data ++
          propertyItemProps item.data ++ variableProps item.data ++
          typeAliasProps item.data) := rfl
      rw [e]
      simp only [List.append_assoc]
      rw [lookup_classProps_skip _ _ _ (by decide) (by decide)]
      rw [lookup_interfaceProps_skip _ _ _ (by decide)]
      rw [lookup_propertyItemProps_skip _ _ _ (by decide) (by decide)]
      rw [lookup_variableProps_skip _ _ _ (by decide)]
      simp [typeAliasProps, h, List.lookup_cons]

/-! ### Lemmas about `toJsValue` -/

theorem convertVals_seen_suffix (conv : Val → List Nat → JsValue × List Nat)
    (hconv : ∀ v s, s <:+ (conv v s).2) :
    ∀ (l : List Val) (seen : List Nat), seen <:+ (convertVals conv l seen).2 := by
  intro l
  induction l with
  | nil => intro seen; exact List.suffix_refl seen
  | cons v rest ih =>
    intro seen
    rw [convertVals]
    exact ((hconv v seen).trans (ih (conv v seen).2)).trans
      (by rfl)

theorem convertEntries_seen_suffix (conv : Val → List Nat → JsValue × List Nat)
    (hconv : ∀ v s, s <:+ (conv v s).2) :
    ∀ (l : List (String × Val)) (seen : List Nat),
      seen <:+ (convertEntries conv l seen).2 := by
  intro l
  induction l with
  | nil => intro seen; exact List.suffix_refl seen
  | cons p rest ih =>
    obtain ⟨k, v⟩ := p
    intro seen
    rw [convertEntries]
    exact ((hconv v seen).trans (ih (conv v seen).2)).trans (by rfl)

theorem convertObjBody_seen_suffix (conv : Val → List Nat → JsValue × List Nat)
    (hconv : ∀ v s, s <:+ (conv v s).2) (props : List (String × Val))
    (seen : List Nat) : seen <:+ (convertObjBody conv props seen).2 := by
  rw [convertObjBody]
  rcases getStrProp props "text" with _ | t
  · simp only
    by_cases h1 : hasProp props "name" && hasProp props "parameterTypeExcerpt"
    · simp only [h1, if_pos]
      exact ((hconv _ seen).trans (hconv _ _)).trans (hconv _ _)
    · simp only [h1]
      by_cases h2 : hasProp props "name" && hasProp props "constraintExcerpt"
      · simp only [h2, if_pos, if_neg, Bool.false_eq_true, if_false]
        exact (((hconv _ seen).trans (hconv _ _)).trans (hconv _ _)).trans
          (hconv _ _)
      · simp only [h2, Bool.false_eq_true, if_false]
        exact convertEntries_seen_suffix conv hconv _ seen
  · simp only
    exact hconv _ seen

theorem toJsValueF_seen_suffix (h : Heap) :
    ∀ (fuel : Nat) (v : Val) (seen : List Nat),
      seen <:+ (toJsValueF h fuel v seen).2 := by
  intro fuel
  induction fuel with
  | zero => intro v seen; exact List.suffix_refl seen
  | succ fuel ih =>
    intro v seen
    cases v with
    | undef => exact List.suffix_refl seen
    | nullV => exact List.suffix_refl seen
    | str s => exact List.suffix_refl seen
    | num n => exact List.suffix_refl seen
    | bool b => exact List.suffix_refl seen
    | funcV => exact List.suffix_refl seen
    | arr elems =>
      rw [toJsValueF]
      exact convertVals_seen_suffix _ ih elems seen
    | obj props =>
      rw [toJsValueF]
      exact convertObjBody_seen_suffix _ ih props seen
    | ref addr =>
      rw [toJsValueF]
      cases hha : h addr with
      | harr elems =>
        by_cases hmem : addr ∈ seen
        · simp only [hmem, if_pos]
          exact List.suffix_refl seen
        · simp only [hmem, if_neg, if_false]
          exact (List.suffix_cons addr seen).trans
            (convertVals_seen_suffix _ ih elems (addr :: seen))
      | hobj props =>
        by_cases hmem : addr ∈ seen
        · simp only [hmem, if_pos]
          exact List.suffix_refl seen
        · simp only [hmem, if_neg, if_false]
          exact (List.suffix_cons addr seen).trans
            (convertObjBody_seen_suffix _ ih props (addr :: seen))

theorem assocSet_append_of_not_mem (l : List (String × JsValue)) (key : String)
    (v : JsValue) (h : key ∉ l.map Prod.fst) :
    assocSet l key v = l ++ [(key, v)] := by
  induction l with
  | nil => rfl
  | cons p rest ih =>
    obtain ⟨k, w⟩ := p
    simp only [List.map_cons, List.mem_cons] at h
    push_neg at h
    rw [assocSet, if_neg (fun hh => h.1 hh.symm)]
    rw [ih h.2]
    rfl

theorem convertEntries_keys (conv : Val → List Nat → JsValue × List Nat) :
    ∀ (l : List (String × Val)) (seen : List Nat),
      ((convertEntries conv l seen).1).map Prod.fst = l.map Prod.fst := by
  intro l
  induction l with
  | nil => intro seen; rfl
  | cons p rest ih =>
    obtain ⟨k, v⟩ := p
    intro seen
    rw [convertEntries]
    simp only [List.map_cons]
    rw [ih]

mutual
/-- Pre-order canonical references of an input tree. -/
def itemRefs : ApiItem → List String
  | ApiItem.mk d ms => d.canonicalReference :: itemRefsList ms
def itemRefsList : List ApiItem → List String
  | [] => []
  | m :: rest => itemRefs m ++ itemRefsList rest
end

mutual
/-- Pre-order canonical references of a view tree. -/
def nodeRefs : ApiNode → List String
  | ApiNode.mk core cs => core.canonicalReference :: nodeRefsList cs
def nodeRefsList : List ApiNode → List String
  | [] => []
  | n :: rest => nodeRefs n ++ nodeRefsList rest
end

mutual
theorem serialize_refs (item : ApiItem) (bc : List BreadcrumbItem)
    (map : RawMap) (c : Nat) :
    nodeRefs (serializeApiItem item bc map c).1 = itemRefs item := by
  cases item with
  | mk d ms =>
    rw [serializeApiItem_mk]
    simp only [nodeRefs, itemRefs]
    rw [serializeMembers_refs ms _ map (c + 1)]
termination_by sizeOf item

theorem serializeMembers_refs (ms : List ApiItem) (bc : List BreadcrumbItem)
    (map : RawMap) (c : Nat) :
    nodeRefsList (serializeMembers ms bc map c).1 = itemRefsList ms := by
  cases ms with
  | nil => rw [serializeMembers_nil]; rfl
  | cons m rest =>
    rw [serializeMembers_cons]
    simp only [nodeRefsList, itemRefsList]
    rw [serialize_refs m bc map c,
       serializeMembers_refs rest bc map (serializeApiItem m bc map c).2]
termination_by sizeOf ms
end

/-! ### Concrete fixtures -/

/-- A heap whose address 0 holds a self-referential object. -/
def cyclicHeap : Heap := fun _ => HeapObj.hobj [("self", Val.ref 0)]

/-- An acyclic heap in which the empty array at address 1 is reachable
twice from the object at address 0 (a DAG, no cycle: address 1 holds no
references at all). -/
def dagHeap : Heap := fun n =>
  if n = 0 then HeapObj.hobj [("a", Val.ref 1), ("b", Val.ref 1)]
  else HeapObj.harr []

/-- A chain of nested fresh objects. -/
def nestVal : Nat → Val
  | 0 => Val.num 0
  | n + 1 => Val.obj [("a", nestVal n)]

/-- The conversion of a nested-object chain truncated at the depth cap. -/
def nestExpected : Nat → JsValue
  | 0 => JsValue.stringV "[max depth reached]"
  | n + 1 => JsValue.objectV [("a", nestExpected n)]

/-- A list of 21 generic keys with the literal key `...` first. -/
def dotProps : List (String × Val) :=
  ("...", Val.num 0) ::
    (List.range 20).map (fun i => ("k" ++ Nat.repr i, Val.num 0))

/-- A list of 21 distinct generic keys `k0`..`k20`. -/
def wideProps : List (String × Val) :=
  (List.range 21).map (fun i => ("k" ++ Nat.repr i, Val.num 0))

/-- Number of entries of an object-tagged value. -/
def jsObjLen : JsValue → Nat
  | JsValue.objectV l => l.length
  | _ => 0

/-- An item implementing no optional capability. -/
def plainItemData : ItemData :=
  { kind := "Function"
    canonicalReference := "pkg!fn:1"
    containerKey := "fn"
    name := none, releaseTag := none, paramList := none, typeParams := none
    returnTypeExcerpt := none, isOptional := none, isReadonly := none
    isStatic := none, isAbstract := none, isProtected := none
    isExported := none, initializer := none, container := none
    tsdoc := none, declared := none, classData := none
    interfaceData := none, propertyData := none, variableData := none
    typeAliasData := none }

/-- A leaf item implementing no optional capability. -/
def plainItem : ApiItem := ApiItem.mk plainItemData []

/-- A one-object raw document whose canonical reference matches
`plainItem`. -/
def wDoc : Json :=
  Json.objJ [("canonicalReference", Json.strJ "pkg!fn:1"),
             ("members", Json.arrJ [])]

/-! ### The claims -/

/-- Claim C1: for every input item tree, the projection returns a view-node
tree structurally isomorphic to the input — the same node count and the
same parent/child shape, with exactly one child view node per source
member, in the same order as the input's members, with no pruning and no
re-ordering (the pre-order canonical-reference lists also agree, pinning
the order-preserving one-to-one correspondence). -/
theorem C1_serialize_structural_iso (item : ApiItem)
    (bc : List BreadcrumbItem) (map : RawMap) (c : Nat) :
    nodeShape (serializeApiItem item bc map c).1 = itemShape item ∧
    nodeCount (serializeApiItem item bc map c).1 = itemCount item ∧
    nodeRefs (serializeApiItem item bc map c).1 = itemRefs item :=
  ⟨serialize_nodeShape item bc map c, serialize_nodeCount item bc map c,
   serialize_refs item bc map c⟩

/-- Claim C2: within a single projection run with the counter reset at the
start (as `POST` does before projecting), node ids are assigned in
pre-order — the pre-order id list is exactly `node-1 … node-n` — so the
root receives the first id, each child's full subtree is numbered before
the next sibling, and every node's id is unique within the run. -/
theorem C2_preorder_unique_ids (item : ApiItem) (map : RawMap) :
    collectIds (serializeApiItem item [] map 0).1 =
      (List.range' 1 (itemCount item)).map (fun k => "node-" ++ Nat.repr k) ∧
    (collectIds (serializeApiItem item [] map 0).1).Nodup := by
  constructor
  · exact serialize_ids item [] map 0
  · rw [serialize_ids item [] map 0]
    exact (List.nodup_range' 1 (itemCount item)).map nodeId_injective

/-- Claim C3: in every projected tree, the last entry of each node's
breadcrumb is that node's own `{id, name-or-fallback, kind}` entry, every
child's breadcrumb is exactly its parent's breadcrumb with one entry
appended (so any descendant's breadcrumb strictly extends its ancestor's
unchanged), and the root's breadcrumb has exactly one entry. -/
theorem C3_breadcrumbs (item : ApiItem) (map : RawMap) (c : Nat) :
    ((serializeApiItem item [] map c).1.core.breadcrumb).length = 1 ∧
    ∀ n' ∈ allNodes (serializeApiItem item [] map c).1,
      n'.core.breadcrumb.getLast? = some (selfEntry n') ∧
      ∀ ch ∈ n'.children,
        ch.core.breadcrumb = n'.core.breadcrumb ++ [selfEntry ch] := by
  constructor
  · rw [serialize_breadcrumb item [] map c]
    simp
  · exact serialize_breadcrumb_inv item [] map c

/-- Witness for C3 at a concrete leaf item. -/
theorem C3_breadcrumbs_witness :
    (serializeApiItem plainItem [] [] 0).1.core.breadcrumb.getLast? =
      some (selfEntry (serializeApiItem plainItem [] [] 0).1) := by
  refine ((C3_breadcrumbs plainItem [] 0).2 _ ?_).1
  rw [show plainItem = ApiItem.mk plainItemData [] from rfl, serializeApiItem_mk]
  simp [allNodes]

/-- Counterexample to claim C4 as stated: on an item that is not a class,
the class-extends capability key `extendsType` is a missing key in
`jsModel.properties`, not an explicit undefined-tagged entry. -/
theorem C4_counterexample : jsProp plainItem "extendsType" = none := by
  have e : jsProp plainItem "extendsType" =
      List.lookup "extendsType" (classProps plainItemData ++
        interfaceProps plainItemData ++ propertyItemProps plainItemData ++
        variableProps plainItemData ++ typeAliasProps plainItemData) := rfl
  rw [e]
  simp only [List.append_assoc]
  rw [show classProps plainItemData = [] from rfl, List.nil_append]
  rw [lookup_interfaceProps_skip _ _ _ (by decide)]
  rw [lookup_propertyItemProps_skip _ _ _ (by decide) (by decide)]
  rw [lookup_variableProps_skip _ _ _ (by decide)]
  exact lookup_typeAliasProps _ _ (by decide)

/-- Witness for C4 (amended) at a concrete capability-free item: the
`name` capability is absent yet its key carries an explicit undefined
tag, while the class-only key `extendsType` is missing. -/
theorem C4_witness :
    jsProp plainItem "name" = some JsValue.undefinedV ∧
    jsProp plainItem "extendsType" = none := by
  obtain ⟨-, h2, -, -, -, -, -, -, -, -, -, -, -, -, -, -, -, -, -, -, -,
    -, -, -, -, -, -, -, -, -, -, -, -, -, -, -, -, -, -, -, -, h42, -, -,
    -, -, -, -, -, -, -, -, -, -, -⟩ := C4_jsModel_keys_amended plainItem
  exact ⟨h2 rfl, h42 rfl⟩

/-- Claim C5: for every node of a tree projected against a side table
built by `buildRawJsonMap` from any raw document (as `POST` does), if the
node's `rawJson` field is present then its `canonicalReference` field
equals the node's own `canonicalReference` — the round-trip through the
side-table join keyed by canonical reference. -/
theorem C5_rawJson_roundtrip (doc : Json) (item : ApiItem) (c : Nat) :
    ∀ n' ∈ allNodes (serializeApiItem item [] (buildRawJsonMap doc []) c).1,
      ∀ r, n'.core.rawJson = some r →
        jsonField r "canonicalReference" =
          some (Json.strJ n'.core.canonicalReference) :=
  serialize_rawJson item [] (buildRawJsonMap doc []) c
    (buildRawJsonMap_inv doc [] rawMapInv_nil)

/-- Witness for C5 at a concrete one-object document and matching item. -/
theorem C5_witness :
    jsonField wDoc "canonicalReference" = some (Json.strJ "pkg!fn:1") := by
  have hmap : buildRawJsonMap wDoc [] = [("pkg!fn:1", wDoc)] := by
    rw [show wDoc = Json.objJ [("canonicalReference", Json.strJ "pkg!fn:1"),
      ("members", Json.arrJ [])] from rfl]
    rw [buildRawJsonMap]
    rw [show jsonMembers [("canonicalReference", Json.strJ "pkg!fn:1"),
      ("members", Json.arrJ [])] = [] from rfl]
    rw [buildRawJsonMapList]
    rfl
  have hmem : (serializeApiItem plainItem [] (buildRawJsonMap wDoc []) 0).1 ∈
      allNodes (serializeApiItem plainItem [] (buildRawJsonMap wDoc []) 0).1 := by
    rw [show plainItem = ApiItem.mk plainItemData [] from rfl,
      serializeApiItem_mk]
    simp [allNodes]
  have hraw : (serializeApiItem plainItem [] (buildRawJsonMap wDoc []) 0).1.core.rawJson
      = some wDoc := by
    rw [show plainItem = ApiItem.mk plainItemData [] from rfl,
      serializeApiItem_mk]
    simp only [ApiNode.core_mk]
    rw [hmap]
    rfl
  have hcr : (serializeApiItem plainItem [] (buildRawJsonMap wDoc []) 0).1.core.canonicalReference
      = "pkg!fn:1" := by
    rw [show plainItem = ApiItem.mk plainItemData [] from rfl,
      serializeApiItem_mk]
    rfl
  have := C5_rawJson_roundtrip wDoc plainItem 0 _ hmem wDoc hraw
  rwa [hcr] at this

/-- Claim C6: the `JsValue` conversion is a total function on every input,
including self-referential/cyclic heaps (its recursion is bounded by the
depth cap, so it always terminates with finite output), and
re-encountering an already-visited array or object short-circuits to a
circular-tagged value at the re-entry point instead of recursing — the
seen set is returned unchanged; on a concrete self-referential object the
whole conversion yields a finite value with the circular tag at the
re-entry point. -/
theorem C6_circular_short_circuit :
    (∀ (h : Heap) (addr : Nat) (seen : List Nat) (depth : Nat),
      depth ≤ 5 → addr ∈ seen →
      toJsValue h (Val.ref addr) seen depth =
        ((match h addr with
          | HeapObj.harr _ => JsValue.circularV "[Circular Array]"
          | HeapObj.hobj _ => JsValue.circularV "[Circular Object]"), seen)) ∧
    toJsValue cyclicHeap (Val.ref 0) [] 0 =
      (JsValue.objectV [("self", JsValue.circularV "[Circular Object]")],
        [0]) := by
  constructor
  · intro h addr seen depth hdep hmem
    rw [toJsValue, show 6 - depth = (5 - depth) + 1 by omega]
    cases hha : h addr with
    | harr elems => simp [toJsValueF, hha, hmem]
    | hobj props => simp [toJsValueF, hha, hmem]
  · rfl

/-- Witness for C6: the re-entry short-circuit at a concrete heap. -/
theorem C6_witness :
    toJsValue cyclicHeap (Val.ref 0) [0] 0 =
      (JsValue.circularV "[Circular Object]", [0]) := by
  have := C6_circular_short_circuit.1 cyclicHeap 0 [0] 0 (by omega) (by simp)
  simpa [cyclicHeap] using this

/-- Claim C7: the conversion truncates at the depth cap — at any depth
greater than 5 it returns the depth-limit placeholder instead of recursing
into the value — so an object nested deeper than 5 introspection levels is
not expanded further: in a 7-deep chain of nested objects only 6 object
levels are materialized and the innermost position holds the placeholder. -/
theorem C7_depth_cap :
    (∀ (h : Heap) (v : Val) (seen : List Nat) (depth : Nat), depth > 5 →
      toJsValue h v seen depth =
        (JsValue.stringV "[max depth reached]", seen)) ∧
    toJsValue emptyHeap (nestVal 7) [] 0 = (nestExpected 6, []) := by
  constructor
  · intro h v seen depth hd
    rw [toJsValue, show 6 - depth = 0 by omega]
    rfl
  · rfl

/-- Witness for C7: the placeholder at a concrete object past the cap. -/
theorem C7_witness :
    toJsValue emptyHeap (Val.obj [("a", Val.num 0)]) [] 6 =
      (JsValue.stringV "[max depth reached]", []) :=
  C7_depth_cap.1 emptyHeap (Val.obj [("a", Val.num 0)]) [] 6 (by omega)

/-- Claim C9: within one introspection the visited set only ever grows —
the incoming seen list is always a suffix of the returned one, entries are
added and never cleared — and consequently on a concrete acyclic input in
which the same array is reachable twice via different paths (`dagHeap`:
the object at address 0 references the reference-free empty array at
address 1 under both of its keys — a DAG with no cycle), the second
encounter yields a circular-tagged value: a circular tag in the output
does not imply a true cycle in the source. -/
theorem C9_visited_set_dag :
    (∀ (h : Heap) (v : Val) (seen : List Nat) (depth : Nat),
      seen <:+ (toJsValue h v seen depth).2) ∧
    toJsValue dagHeap (Val.ref 0) [] 0 =
      (JsValue.objectV [("a", JsValue.arrayV [] 0),
                        ("b", JsValue.circularV "[Circular Array]")],
        [1, 0]) := by
  constructor
  · intro h v seen depth
    exact toJsValueF_seen_suffix h (6 - depth) v seen
  · rfl

/-- Claim C10 (amended): generic-object introspection expands at most the
first 20 enumerable keys of an object; for an object with more than 20
keys that reaches the generic branch (no Excerpt / Parameter /
TypeParameter special case applies), when the literal key `...` is not
among its first 20 keys the remaining keys are omitted and replaced by a
single extra `...` entry appended after the expanded keys, whose string
value states how many more properties exist. (When `...` is itself among
the first 20 keys, the existing `...` entry is overwritten in place with
the count string and no extra entry is appended — see the
counterexample.) -/
theorem C10_key_cap_amended (h : Heap) (props : List (String × Val))
    (seen : List Nat) (depth : Nat) (hdep : depth ≤ 5)
    (htext : getStrProp props "text" = none)
    (hpar : (hasProp props "name" && hasProp props "parameterTypeExcerpt") = false)
    (htp : (hasProp props "name" && hasProp props "constraintExcerpt") = false)
    (hlen : props.length > 20)
    (hdots : "..." ∉ (props.take 20).map Prod.fst) :
    toJsValue h (Val.obj props) seen depth =
      (JsValue.objectV
        ((convertEntries (fun v s => toJsValue h v s (depth + 1))
            (props.take 20) seen).1 ++
          [("...", JsValue.stringV
            ("[" ++ Nat.repr (props.length - 20) ++ " more properties]"))]),
       (convertEntries (fun v s => toJsValue h v s (depth + 1))
          (props.take 20) seen).2) := by
  have hconv : (fun v s => toJsValue h v s (depth + 1)) =
      toJsValueF h (5 - depth) := by
    funext v s
    rw [toJsValue]
    congr 1
    omega
  rw [toJsValue, show 6 - depth = (5 - depth) + 1 by omega]
  rw [toJsValueF, convertObjBody, htext]
  simp only [hpar, htp, Bool.false_eq_true, if_false]
  rw [if_pos hlen]
  rw [hconv]
  rw [assocSet_append_of_not_mem _ _ _
    (by rw [convertEntries_keys]; exact hdots)]

/-- Witness for C10 (amended) at a 21-distinct-key object. -/
theorem C10_witness :
    toJsValue emptyHeap (Val.obj wideProps) [] 0 =
      (JsValue.objectV
        ((convertEntries (fun v s => toJsValue emptyHeap v s (0 + 1))
            (wideProps.take 20) []).1 ++
          [("...", JsValue.stringV
            ("[" ++ Nat.repr (wideProps.length - 20) ++ " more properties]"))]),
       (convertEntries (fun v s => toJsValue emptyHeap v s (0 + 1))
          (wideProps.take 20) []).2) :=
  C10_key_cap_amended emptyHeap wideProps [] 0 (by omega) (by rfl) (by rfl)
    (by rfl) (by decide) (by decide)

/-- Counterexample to claim C10 as stated: on the 21-key object whose
first key is the literal `...`, the output has only 20 entries — the
existing `...` entry is overwritten in place — so it differs from the
claim's predicted form (the expanded first 20 keys plus a single extra
`...` entry, 21 entries in total). -/
theorem C10_counterexample :
    (toJsValue emptyHeap (Val.obj dotProps) [] 0).1 ≠
      JsValue.objectV
        ((convertEntries (fun v s => toJsValue emptyHeap v s 1)
            (dotProps.take 20) []).1 ++
          [("...", JsValue.stringV "[1 more properties]")]) := by
  intro hEq
  have hlen := congrArg jsObjLen hEq
  exact absurd hlen (by decide)

/-- Claim C8: a request whose JSON payload exceeds 10 MiB — detected by
the content-length header or by the measured length of the submitted JSON
string — is answered with the distinct too-large response (status 413),
and this holds for every possible outcome of the JSON parser and of the
model loader: neither payload parsing, side-table construction nor
projection can influence the response, so none is observably attempted.
The too-large signal differs from the invalid-JSON signal. -/
theorem C8_payload_ceiling :
    (∀ (req : ReqModel) (parseJson : String → Option Json)
       (loadPackage : String → Option ApiItem)
       (bodyProps : List (String × Json)) (s : String),
      req.body = some (Json.objJ bodyProps) →
      List.lookup "json" bodyProps = some (Json.strJ s) →
      s.length > MAX_PAYLOAD_SIZE →
      POST req parseJson loadPackage = tooLargeResp) ∧
    (∀ (req : ReqModel) (parseJson : String → Option Json)
       (loadPackage : String → Option ApiItem) (cl : String) (v : Nat),
      req.contentLength = some cl → parseIntLeading cl = some v →
      v > MAX_PAYLOAD_SIZE →
      POST req parseJson loadPackage = tooLargeResp) ∧
    tooLargeResp ≠ invalidJsonResp := by
  refine ⟨?_, ?_, ?_⟩
  · intro req pj lp bodyProps s hb hs hlen
    rw [POST]
    by_cases hh : headerTooLarge req
    · rw [if_pos hh]
    · rw [if_neg hh]
      have hne : ¬s = "" := by
        intro h0
        rw [h0] at hlen
        exact absurd hlen (by decide)
      simp only [hb, hs]
      rw [if_neg hne, if_pos hlen]
  · intro req pj lp cl v hcl hv hgt
    have hh : headerTooLarge req = true := by
      simp only [headerTooLarge, hcl, hv]
      exact decide_eq_true hgt
    rw [POST, if_pos hh]
  · intro hEq
    have := congrArg RespModel.status hEq
    simp [tooLargeResp, invalidJsonResp] at this

/-- A request carrying an 11 MiB payload string. -/
def req11 : ReqModel :=
  { contentLength := none
    body := some (Json.objJ
      [("json", Json.strJ (String.mk (List.replicate 11534336 'a')))]) }

/-- Witness for C8: the 11 MiB payload is answered with the too-large
response whatever the parser and loader would do. -/
theorem C8_witness :
    POST req11 (fun _ => none) (fun _ => none) = tooLargeResp := by
  refine C8_payload_ceiling.1 req11 _ _ _
    (String.mk (List.replicate 11534336 'a')) rfl rfl ?_
  rw [show (String.mk (List.replicate 11534336 'a')).length =
    (List.replicate 11534336 'a').length from rfl]
  rw [List.length_replicate]
  decide
